import Mathlib

/-!
Shallow embedding of the Evercode-Core communication library
(`src/PinComm.cpp`, `src/NetworkCore.cpp`, `src/NetworkDiscovery.cpp`,
`src/NetworkPinControl.cpp` and their headers) together with proofs about
the spec's claims on message tracking, retries, discovery, peer eviction,
framing, and size guards.

Modelling conventions:
* C `uint32_t` arithmetic is `Nat` together with explicit wrapping
  subtraction (`sub32`) where the source subtracts unsigned timestamps.
* Fixed-size C arrays are Lean lists whose length equals the array bound;
  the C `for` loops over them become folds or structural recursions.
* Function-pointer callbacks are `Option Nat`: `none` models `NULL`, and
  `some k` models a concrete non-null pointer with identity `k`.  Invoking
  a callback is modelled by emitting an event that records the pointer
  identity and the arguments.
* `millis()` is passed in as an explicit `now : Nat` argument.
* Serial / ESP-NOW transmission is modelled by emitting a `frameSent` /
  `espNowSend` event; JSON (de)serialization by the external ArduinoJson
  library is modelled at its interface boundary by structured documents
  and an explicit serialized-length function.
-/

/-- Wrapping `uint32_t` subtraction `a - b` for `a b < 2^32`. -/
def sub32 (a b : Nat) : Nat := (a + 4294967296 - b) % 4294967296

/-! ## Constants from `PinComm.h` / `NetworkCore.h` / `NetworkDiscovery.h` -/

def MSG_TYPE_PIN_CONTROL : Nat := 1
def MSG_TYPE_PIN_PUBLISH : Nat := 3
def MSG_TYPE_MESSAGE : Nat := 4
def MSG_TYPE_SERIAL_DATA : Nat := 5
def MSG_TYPE_DIRECT_MESSAGE : Nat := 6
def MSG_TYPE_DISCOVERY : Nat := 7
def MSG_TYPE_DISCOVERY_RESPONSE : Nat := 8
def MSG_TYPE_ACKNOWLEDGEMENT : Nat := 9
def MSG_TYPE_PIN_READ_REQUEST : Nat := 10
def MSG_TYPE_PIN_READ_RESPONSE : Nat := 11

def MAX_SUBSCRIPTIONS : Nat := 20
def MAX_PEERS : Nat := 20
def MAX_QUEUED_RESPONSES : Nat := 10
def MAX_PIN_DATA_SIZE : Nat := 250
def ACK_TIMEOUT : Nat := 5000
def DEFAULT_MAX_RETRIES : Nat := 3
def DEFAULT_RETRY_DELAY : Nat := 500
def MAX_RETRY_DELAY : Nat := 10000
def MAX_TRACKED_MESSAGES : Nat := 10
def MAX_ESP_NOW_DATA_SIZE : Nat := 250

def FRAME_START_BYTE : Nat := 0x7E
def FRAME_END_BYTE : Nat := 0x7F
def ESCAPE_BYTE : Nat := 0x7D

def INITIAL_DISCOVERY_INTERVAL : Nat := 5000
def ACTIVE_DISCOVERY_INTERVAL : Nat := 20000
def STABLE_DISCOVERY_INTERVAL : Nat := 60000

/-! ## Byte-stream framing (`PinComm::sendFrame` / `PinComm::receiveFrame`) -/

/-- Byte stuffing applied by `PinComm::sendFrame` to one payload byte:
reserved marker bytes are escaped and XORed with `0x20`. -/
def escapeByte (b : Nat) : List Nat :=
  if b = FRAME_START_BYTE ∨ b = FRAME_END_BYTE ∨ b = ESCAPE_BYTE then
    [ESCAPE_BYTE, b ^^^ 0x20]
  else
    [b]

/-- Byte sequence written on the wire by `PinComm::sendFrame` for a payload:
start marker, stuffed payload, end marker.  The source returns `false`
and writes nothing when the payload is empty or the port is down. -/
def pcSendFrame (isConnected : Bool) (payload : List Nat) : Option (List Nat) :=
  if isConnected = false ∨ payload = [] then none
  else some ([FRAME_START_BYTE] ++ payload.flatMap escapeByte ++ [FRAME_END_BYTE])

/-- Receiver-side unescaping state of `PinComm::receiveFrame`:
`isReceiving`/`isEscaped` flags and the bytes accumulated so far
(`_receiveBuffer[0.._receiveBufferIndex]`). -/
structure RxState where
  isReceiving : Bool
  isEscaped : Bool
  buffer : List Nat
deriving Repr, DecidableEq

/-- Initial receiver state. -/
def rxInit : RxState := ⟨false, false, []⟩

/-- Buffer-limit check performed by `PinComm::receiveFrame` after the
branches that do not terminate the frame: when
`_receiveBufferIndex >= MAX_PIN_DATA_SIZE` the frame is aborted. -/
def rxLimit (s : RxState) : RxState × Option (List Nat) :=
  if MAX_PIN_DATA_SIZE ≤ s.buffer.length then
    (RxState.mk false s.isEscaped s.buffer, none)
  else (s, none)

/-- One step of the `PinComm::receiveFrame` state machine on one input
byte.  Returns the next state and the complete unescaped payload when the
end marker closes a frame (the source returns immediately after handing
it to `processIncomingMessage`, so the limit check is skipped there). -/
def rxStep (s : RxState) (byte : Nat) : RxState × Option (List Nat) :=
  if s.isReceiving = false then
    if byte = FRAME_START_BYTE then (RxState.mk true false [], none)
    else (s, none)
  else if s.isEscaped then
    rxLimit (RxState.mk true false (s.buffer ++ [byte ^^^ 0x20]))
  else if byte = ESCAPE_BYTE then
    rxLimit (RxState.mk true true s.buffer)
  else if byte = FRAME_END_BYTE then
    (RxState.mk false s.isEscaped s.buffer, some s.buffer)
  else if byte = FRAME_START_BYTE then
    rxLimit (RxState.mk true s.isEscaped [])
  else
    rxLimit (RxState.mk true s.isEscaped (s.buffer ++ [byte]))

/-- Feed a byte list through the receiver (the `while available` read
loop of `PinComm::receiveFrame`, iterated until the input is drained),
collecting every delivered payload in order. -/
def rxFeed (s : RxState) : List Nat → RxState × List (List Nat)
  | [] => (s, [])
  | b :: rest =>
    let r := rxStep s b
    let rr := rxFeed r.1 rest
    (rr.1, (match r.2 with | some p => [p] | none => []) ++ rr.2)

/-! ## PinComm message-level model (`src/PinComm.cpp`)

Incoming frames are modelled after JSON parsing: a `PCDoc` is the
ArduinoJson document with its optional fields (`None` models a missing
key; reading a missing numeric key yields `0` as in ArduinoJson).
The serial byte layer above feeds `processIncomingMessage`; at this level
each received document is injected directly. -/

/-- ArduinoJson document as read/written by `PinComm` (keys `sender`,
`id`, `type`, `pin`, `value`, `topic`, `message`, `data`, `ack_id`,
`success`, `callback`). -/
structure PCDoc where
  sender : Option String := none
  id : Option String := none
  typ : Option Nat := none
  pin : Option Nat := none
  value : Option Nat := none
  topic : Option String := none
  message : Option String := none
  data : Option String := none
  ackId : Option String := none
  success : Option Bool := none
  callback : Option Nat := none
deriving Repr, DecidableEq

/-- Tracked-message slot (`PinComm::MessageTrack`).  The constructor only
initialises the three booleans; the remaining fields model the
uninitialised C fields with zero values. -/
structure MessageTrack where
  messageId : String := ""
  targetBoard : String := ""
  acknowledged : Bool := false
  sentTime : Nat := 0
  active : Bool := false
  messageType : Nat := 0
  confirmCallback : Option Nat := none
  pin : Nat := 0
  value : Nat := 0
  retryCount : Nat := 0
  nextRetryTime : Nat := 0
  retryScheduled : Bool := false
deriving Repr, DecidableEq, Inhabited

/-- Peer slot (`PinComm::PeerInfo`). -/
structure PCPeer where
  boardId : String := ""
  active : Bool := false
  lastSeen : Nat := 0
deriving Repr, DecidableEq, Inhabited

/-- Subscription slot (`PinComm::Subscription`). -/
structure PCSubscription where
  topic : String := ""
  targetBoard : String := ""
  pin : Nat := 0
  typ : Nat := 0
  callback : Option Nat := none
  active : Bool := false
deriving Repr, DecidableEq, Inhabited

/-- Queued pin-read response (`PinComm::PinReadResponse`). -/
structure PCQueuedResponse where
  targetBoard : String := ""
  pin : Nat := 0
  value : Nat := 0
  success : Bool := false
  messageId : String := ""
  active : Bool := false
  queuedTime : Nat := 0
deriving Repr, DecidableEq, Inhabited

/-- Observable actions of the PinComm model: frames handed to the UART
(unicast or broadcast) and invocations of registered callbacks, each
recording the function-pointer identity and the arguments. -/
inductive PCEvent where
  | frameSent (messageType : Nat) (target : String) (doc : PCDoc)
  | broadcastSent (messageType : Nat) (doc : PCDoc)
  | confirmCall (cb : Nat) (board : String) (pin : Nat) (value : Nat) (success : Bool)
  | sendStatusCall (cb : Nat) (target : String) (messageType : Nat) (success : Bool)
  | sendFailureCall (cb : Nat) (target : String) (messageType : Nat) (pin : Nat) (value : Nat)
  | discoveryCall (cb : Nat) (board : String)
  | pinChangeCall (cb : Nat) (sender : String) (pin : Nat) (value : Nat)
  | messageCall (cb : Nat) (sender : String) (topic : String) (message : String)
  | serialDataCall (cb : Nat) (sender : String) (data : String)
  | pinReadResponseCall (cb : Nat) (sender : String) (pin : Nat) (value : Nat) (success : Bool)
deriving Repr, DecidableEq

/-- Complete mutable state of a `PinComm` instance (the constructor's
initial values are the field defaults). -/
structure PinCommState where
  boardId : String := ""
  isConnected : Bool := false
  acknowledgementsEnabled : Bool := true
  pinControlRetriesEnabled : Bool := true
  pinControlMaxRetries : Nat := DEFAULT_MAX_RETRIES
  pinControlRetryDelay : Nat := DEFAULT_RETRY_DELAY
  trackedMessages : List MessageTrack := List.replicate MAX_TRACKED_MESSAGES {}
  trackedMessageCount : Nat := 0
  peers : List PCPeer := List.replicate MAX_PEERS {}
  peerCount : Nat := 0
  subscriptions : List PCSubscription := List.replicate MAX_SUBSCRIPTIONS {}
  subscriptionCount : Nat := 0
  queuedResponses : List PCQueuedResponse := List.replicate MAX_QUEUED_RESPONSES {}
  queuedResponseCount : Nat := 0
  directMessageCallback : Option Nat := none
  serialDataCallback : Option Nat := none
  discoveryCallback : Option Nat := none
  pinControlConfirmCallback : Option Nat := none
  pinReadCallback : Option Nat := none
  sendStatusCallback : Option Nat := none
  sendFailureCallback : Option Nat := none
  lastDiscoveryBroadcast : Nat := 0
deriving Repr, DecidableEq

/-- The C scan `best = -1; oldest = init; for i: if (v[i] < oldest)
\x7b oldest = v[i]; best = i; \x7d` used to pick the slot with the oldest
timestamp. -/
def oldestScanAux (vals : List Nat) (i : Nat) (best : Option Nat) (oldest : Nat) :
    Option Nat :=
  match vals with
  | [] => best
  | v :: rest =>
    if v < oldest then oldestScanAux rest (i + 1) (some i) v
    else oldestScanAux rest (i + 1) best oldest

/-- Index of the first entry strictly older than every later one and the
initial bound, as computed by the C oldest-slot scans. -/
def oldestScan (vals : List Nat) (init : Nat) : Option Nat :=
  oldestScanAux vals 0 none init

/-- Timestamp-based message-id generation (`PinComm::generateMessageId`
formats `millis()` plus a random number; the random part is modelled by a
fixed suffix). -/
def genMessageId (now : Nat) : String := toString now ++ "-gen"

/-- Length model for ArduinoJson string fields: `"key":"value",`. -/
def optStrFieldLen (key : String) : Option String → Nat
  | some v => key.length + v.length + 6
  | none => 0

/-- Length model for ArduinoJson numeric fields: `"key":value,`. -/
def optNatFieldLen (key : String) : Option Nat → Nat
  | some v => key.length + (toString v).length + 4
  | none => 0

/-- Length model for ArduinoJson boolean fields. -/
def optBoolFieldLen (key : String) : Option Bool → Nat
  | some true => key.length + 8
  | some false => key.length + 9
  | none => 0

/-- Serialized length of a document carrying message type `messageType`
(model of `serializeJson` at the ArduinoJson interface boundary: the
length of the JSON text of the present fields). -/
def pcSerializedLen (messageType : Nat) (d : PCDoc) : Nat :=
  1 + ("type".length + (toString messageType).length + 4)
    + optStrFieldLen "sender" d.sender + optStrFieldLen "id" d.id
    + optNatFieldLen "pin" d.pin + optNatFieldLen "value" d.value
    + optStrFieldLen "topic" d.topic + optStrFieldLen "message" d.message
    + optStrFieldLen "data" d.data + optStrFieldLen "ack_id" d.ackId
    + optBoolFieldLen "success" d.success + optNatFieldLen "callback" d.callback

/-- Message send with optional acknowledgement tracking
(`PinComm::sendMessage`).  Adds `type`, serializes, enforces the size
guard before anything is transmitted, allocates a tracking slot (first
inactive slot, else oldest `sentTime`) when acknowledgements are enabled
and the kind is not an acknowledgement, and hands the frame to the UART.
Returns the new state, the emitted events, and the boolean result. -/
def pcSendMessage (s : PinCommState) (targetBoard : String) (messageType : Nat)
    (doc : PCDoc) (now : Nat) : PinCommState × List PCEvent × Bool :=
  if s.isConnected = false ∨ targetBoard.length = 0 then (s, [], false)
  else
    let len := pcSerializedLen messageType doc
    if len = 0 ∨ MAX_PIN_DATA_SIZE ≤ len then (s, [], false)
    else
      let s1 :=
        if s.acknowledgementsEnabled ∧ messageType ≠ MSG_TYPE_ACKNOWLEDGEMENT then
          let slot? :=
            match s.trackedMessages.findIdx? (fun t => t.active = false) with
            | some j => some j
            | none => oldestScan (s.trackedMessages.map (·.sentTime)) now
          match slot?, doc.id with
          | some j, some mid =>
            let t0 := s.trackedMessages.getD j {}
            let t1 : MessageTrack :=
              { messageId := mid
                targetBoard := targetBoard
                acknowledged := false
                sentTime := now
                active := true
                messageType := messageType
                confirmCallback :=
                  if messageType = MSG_TYPE_PIN_CONTROL then doc.callback
                  else t0.confirmCallback
                pin := if messageType = MSG_TYPE_PIN_CONTROL then doc.pin.getD 0 else t0.pin
                value := if messageType = MSG_TYPE_PIN_CONTROL then doc.value.getD 0 else t0.value
                retryCount := 0
                nextRetryTime := t0.nextRetryTime
                retryScheduled := false }
            { s with trackedMessages := s.trackedMessages.set j t1
                     trackedMessageCount := max s.trackedMessageCount (j + 1) }
          | _, _ => s
        else s
      (s1, [PCEvent.frameSent messageType targetBoard doc], true)

/-- Broadcast without tracking (`PinComm::broadcastMessage`). -/
def pcBroadcastMessage (s : PinCommState) (messageType : Nat) (doc : PCDoc) :
    PinCommState × List PCEvent × Bool :=
  if s.isConnected = false then (s, [], false)
  else
    let len := pcSerializedLen messageType doc
    if len = 0 ∨ MAX_PIN_DATA_SIZE ≤ len then (s, [], false)
    else (s, [PCEvent.broadcastSent messageType doc], true)

/-- Acknowledgement frame for a received message
(`PinComm::sendAcknowledgement`): fresh id, `ack_id` set to the received
message id, sent through `pcSendMessage` with the acknowledgement kind. -/
def pcSendAcknowledgement (s : PinCommState) (sender messageId : String) (now : Nat) :
    PinCommState × List PCEvent :=
  if s.isConnected = false then (s, [])
  else
    let doc : PCDoc :=
      { sender := some s.boardId, id := some (genMessageId now),
        ackId := some messageId }
    let r := pcSendMessage s sender MSG_TYPE_ACKNOWLEDGEMENT doc now
    (r.1, r.2.1)

/-- Peer upsert (`PinComm::addPeer`): refresh `lastSeen` for a known id
(scanning the first `peerCount` slots by id only), otherwise insert into
the first inactive slot, else into the slot with the oldest `lastSeen`
strictly below `millis()`; fires the discovery callback only on insert. -/
def pcAddPeer (s : PinCommState) (boardId : String) (now : Nat) :
    PinCommState × List PCEvent × Bool :=
  if boardId.length = 0 then (s, [], false)
  else
    match (s.peers.take s.peerCount).findIdx? (fun p => p.boardId = boardId) with
    | some i =>
      let p := s.peers.getD i {}
      ({ s with peers := s.peers.set i { p with lastSeen := now, active := true } },
       [], true)
    | none =>
      let slot? :=
        match s.peers.findIdx? (fun p => p.active = false) with
        | some j => some j
        | none => oldestScan ((s.peers.take s.peerCount).map (·.lastSeen)) now
      match slot? with
      | none => (s, [], false)
      | some j =>
        if MAX_PEERS ≤ j then (s, [], false)
        else
          let s1 := { s with
            peers := s.peers.set j { boardId := boardId, active := true, lastSeen := now }
            peerCount := max s.peerCount (j + 1) }
          (s1,
           (match s.discoveryCallback with
            | some cb => [PCEvent.discoveryCall cb boardId]
            | none => []),
           true)

/-- Availability check (`PinComm::isBoardAvailable`): an active peer slot
among the first `peerCount` carries the id. -/
def pcIsBoardAvailable (s : PinCommState) (boardId : String) : Bool :=
  s.isConnected &&
    (s.peers.take s.peerCount).any (fun p => p.active && p.boardId == boardId)

/-- First matching slot of the acknowledgement scan in
`PinComm::handleAcknowledgement` and the post-send callback-attachment
scans: active, same message id, same target board. -/
def trackScanIdx (l : List MessageTrack) (sender messageId : String) : Option Nat :=
  l.findIdx? (fun t => t.active && t.messageId == messageId && t.targetBoard == sender)

/-- Incoming acknowledgement (`PinComm::handleAcknowledgement`): the first
matching tracked slot is marked acknowledged, its pin-control confirm
callback (if any) fires with success, the global send-status callback
fires, and the slot is deactivated. -/
def pcHandleAcknowledgement (s : PinCommState) (sender messageId : String) :
    PinCommState × List PCEvent :=
  match trackScanIdx (s.trackedMessages.take s.trackedMessageCount) sender messageId with
  | none => (s, [])
  | some i =>
    let t := s.trackedMessages.getD i {}
    let ev1 :=
      if t.messageType = MSG_TYPE_PIN_CONTROL then
        match t.confirmCallback with
        | some cb => [PCEvent.confirmCall cb t.targetBoard t.pin t.value true]
        | none => []
      else []
    let ev2 :=
      match s.sendStatusCallback with
      | some cb => [PCEvent.sendStatusCall cb t.targetBoard t.messageType true]
      | none => []
    ({ s with trackedMessages :=
        s.trackedMessages.set i { t with acknowledged := true, active := false } },
     ev1 ++ ev2)

/-- Bulk clear (`PinComm::clearRemotePinConfirmCallback`): nulls the
global pin-control confirm callback and the per-message callbacks of the
tracked slots within `trackedMessageCount` that are active and of the
pin-control kind. -/
def pcClearRemotePinConfirmCallback (s : PinCommState) : PinCommState :=
  { s with
    pinControlConfirmCallback := none
    trackedMessages := s.trackedMessages.mapIdx (fun i t =>
      if i < s.trackedMessageCount ∧ t.active ∧ t.messageType = MSG_TYPE_PIN_CONTROL
      then { t with confirmCallback := none } else t) }

/-- Remote pin control (`PinComm::controlRemotePin`): availability check,
pin-control document with a fresh message id, send, then attach the
caller's callback to the freshly tracked slot found by id and target. -/
def pcControlRemotePin (s : PinCommState) (targetBoardId : String)
    (pin value : Nat) (callback : Option Nat) (messageId : String) (now : Nat) :
    PinCommState × List PCEvent × Bool :=
  if s.isConnected = false ∨ targetBoardId.length = 0 then (s, [], false)
  else if pcIsBoardAvailable s targetBoardId = false then (s, [], false)
  else
    let doc : PCDoc :=
      { sender := some s.boardId, id := some messageId,
        pin := some pin, value := some value }
    let r := pcSendMessage s targetBoardId MSG_TYPE_PIN_CONTROL doc now
    let s1 := r.1
    if r.2.2 ∧ callback.isSome then
      match trackScanIdx (s1.trackedMessages.take s1.trackedMessageCount)
          targetBoardId messageId with
      | some i =>
        let t := s1.trackedMessages.getD i {}
        ({ s1 with trackedMessages :=
            s1.trackedMessages.set i { t with confirmCallback := callback } },
         r.2.1, r.2.2)
      | none => (s1, r.2.1, r.2.2)
    else (s1, r.2.1, r.2.2)

/-- Remote pin read (`PinComm::readRemotePin`): requires a non-null
callback, sends a pin-read request, then stores the pin and the callback
in the freshly tracked slot found by id and target. -/
def pcReadRemotePin (s : PinCommState) (targetBoardId : String) (pin : Nat)
    (callback : Option Nat) (messageId : String) (now : Nat) :
    PinCommState × List PCEvent × Bool :=
  if s.isConnected = false ∨ targetBoardId.length = 0 ∨ callback = none then
    (s, [], false)
  else if pcIsBoardAvailable s targetBoardId = false then (s, [], false)
  else
    let doc : PCDoc :=
      { sender := some s.boardId, id := some messageId, pin := some pin }
    let r := pcSendMessage s targetBoardId MSG_TYPE_PIN_READ_REQUEST doc now
    let s1 := r.1
    if r.2.2 then
      match trackScanIdx (s1.trackedMessages.take s1.trackedMessageCount)
          targetBoardId messageId with
      | some i =>
        let t := s1.trackedMessages.getD i {}
        ({ s1 with trackedMessages :=
            s1.trackedMessages.set i { t with pin := pin, confirmCallback := callback } },
         r.2.1, r.2.2)
      | none => (s1, r.2.1, r.2.2)
    else (s1, r.2.1, r.2.2)

/-- Queue an incoming pin-read response (`PinComm::queuePinReadResponse`):
first inactive slot, else the slot with the oldest `queuedTime` strictly
below `millis()`. -/
def pcQueuePinReadResponse (s : PinCommState) (targetBoard : String)
    (pin value : Nat) (success : Bool) (messageId : String) (now : Nat) :
    PinCommState :=
  let slot? :=
    match s.queuedResponses.findIdx? (fun q => q.active = false) with
    | some j => some j
    | none => oldestScan (s.queuedResponses.map (·.queuedTime)) now
  match slot? with
  | none => s
  | some j =>
    if MAX_QUEUED_RESPONSES ≤ j then s
    else
      { s with
        queuedResponses := s.queuedResponses.set j
          { targetBoard := targetBoard, pin := pin, value := value,
            success := success, messageId := messageId,
            active := true, queuedTime := now }
        queuedResponseCount := max s.queuedResponseCount (j + 1) }

/-- One queued-response slot of `PinComm::processQueuedResponses`: match
it against a tracked pin-read request by target board and pin, fire the
stored response callback, deactivate both; otherwise expire it after five
seconds. -/
def processQueuedSlot (s : PinCommState) (now i : Nat) :
    PinCommState × List PCEvent :=
  let q := s.queuedResponses.getD i {}
  if q.active = false then (s, [])
  else
    match (s.trackedMessages.take s.trackedMessageCount).findIdx?
        (fun t => t.active && t.messageType == MSG_TYPE_PIN_READ_REQUEST
          && t.targetBoard == q.targetBoard && t.pin == q.pin) with
    | some j =>
      let t := s.trackedMessages.getD j {}
      let evs :=
        match t.confirmCallback with
        | some cb => [PCEvent.pinReadResponseCall cb q.targetBoard q.pin q.value q.success]
        | none => []
      ({ s with
          trackedMessages := s.trackedMessages.set j { t with active := false }
          queuedResponses := s.queuedResponses.set i { q with active := false } },
       evs)
    | none =>
      if sub32 now q.queuedTime > 5000 then
        ({ s with queuedResponses := s.queuedResponses.set i { q with active := false } },
         [])
      else (s, [])

/-- Drain loop of `PinComm::processQueuedResponses` over the first
`queuedResponseCount` slots. -/
def pcProcessQueuedResponses (s : PinCommState) (now : Nat) :
    PinCommState × List PCEvent :=
  (List.range s.queuedResponseCount).foldl
    (fun acc i =>
      let r := processQueuedSlot acc.1 now i
      (r.1, acc.2 ++ r.2))
    (s, [])

/-- One iteration of the tracked-message loop in `PinComm::update` for
slot `i`: on timeout, fire the pin-control confirm callback with failure
and the global send-failure callback, then either schedule a retry
(incrementing `retryCount`, resetting `sentTime`) or deactivate the slot;
afterwards, if a scheduled retry is due, rebuild the document from the
stored fields and resend it through `pcSendMessage` (which allocates a
fresh tracking slot for the same id). -/
def processTrackedSlot (s : PinCommState) (now i : Nat) :
    PinCommState × List PCEvent :=
  let t := s.trackedMessages.getD i {}
  if t.active && !t.acknowledged then
    let step1 : PinCommState × List PCEvent :=
      if sub32 now t.sentTime > ACK_TIMEOUT then
        let ev1 :=
          if t.messageType = MSG_TYPE_PIN_CONTROL then
            match t.confirmCallback with
            | some cb => [PCEvent.confirmCall cb t.targetBoard t.pin t.value false]
            | none => []
          else []
        let ev2 :=
          match s.sendFailureCallback with
          | some cb => [PCEvent.sendFailureCall cb t.targetBoard t.messageType t.pin t.value]
          | none => []
        if s.pinControlRetriesEnabled ∧ t.messageType = MSG_TYPE_PIN_CONTROL
            ∧ t.retryCount < s.pinControlMaxRetries then
          let tr := { t with retryCount := t.retryCount + 1,
                             nextRetryTime := now + s.pinControlRetryDelay,
                             retryScheduled := true,
                             sentTime := now }
          ({ s with trackedMessages := s.trackedMessages.set i tr }, ev1 ++ ev2)
        else
          ({ s with trackedMessages := s.trackedMessages.set i { t with active := false } },
           ev1 ++ ev2)
      else (s, [])
    let s1 := step1.1
    let t1 := s1.trackedMessages.getD i {}
    if t1.retryScheduled ∧ t1.nextRetryTime ≤ now then
      let doc : PCDoc :=
        { id := some t1.messageId
          sender := some s1.boardId
          pin := if t1.messageType = MSG_TYPE_PIN_CONTROL then some t1.pin else none
          value := if t1.messageType = MSG_TYPE_PIN_CONTROL then some t1.value else none }
      let r := pcSendMessage s1 t1.targetBoard t1.messageType doc now
      let s2 := r.1
      let t2 := s2.trackedMessages.getD i {}
      ({ s2 with trackedMessages :=
          s2.trackedMessages.set i { t2 with retryScheduled := false } },
       step1.2 ++ r.2.1)
    else (s1, step1.2)
  else (s, [])

/-- Periodic presence broadcast (`PinComm::broadcastPresence`). -/
def pcBroadcastPresence (s : PinCommState) (now : Nat) :
    PinCommState × List PCEvent :=
  if s.isConnected = false then (s, [])
  else
    let doc : PCDoc := { sender := some s.boardId, id := some (genMessageId now) }
    let r := pcBroadcastMessage s MSG_TYPE_DISCOVERY doc
    ({ r.1 with lastDiscoveryBroadcast := now }, r.2.1)

/-- Main periodic step (`PinComm::update`) minus the serial polling:
drain queued responses, run the timeout/retry loop over all tracked
slots, and re-broadcast presence every 30 seconds.  Frame reception is
modelled by separate `pcProcessIncomingMessage` calls. -/
def pcUpdate (s : PinCommState) (now : Nat) : PinCommState × List PCEvent :=
  if s.isConnected = false then (s, [])
  else
    let r0 := pcProcessQueuedResponses s now
    let r1 :=
      (List.range MAX_TRACKED_MESSAGES).foldl
        (fun acc i =>
          let r := processTrackedSlot acc.1 now i
          (r.1, acc.2 ++ r.2))
        r0
    if sub32 now r1.1.lastDiscoveryBroadcast > 30000 then
      let r2 := pcBroadcastPresence r1.1 now
      ({ r2.1 with lastDiscoveryBroadcast := now }, r1.2 ++ r2.2)
    else r1

/-- GPIO read at the hardware boundary (`digitalRead` or the registered
pin-read callback); external to the library, modelled as a constant-zero
reading — the claims never depend on the value. -/
def digitalReadValue (_pin : Nat) : Nat := 0

/-- Discovery handler (`PinComm::handleDiscovery`): ignore self, upsert
the sender as a peer, and answer with a unicast discovery response. -/
def pcHandleDiscovery (s : PinCommState) (senderId : String) (now : Nat) :
    PinCommState × List PCEvent :=
  if senderId.length = 0 then (s, [])
  else if senderId = s.boardId then (s, [])
  else
    let r1 := pcAddPeer s senderId now
    let doc : PCDoc := { sender := some r1.1.boardId, id := some (genMessageId now) }
    let r2 := pcSendMessage r1.1 senderId MSG_TYPE_DISCOVERY_RESPONSE doc now
    (r2.1, r1.2.1 ++ r2.2.1)

/-- Kind-specific dispatch of `PinComm::processIncomingMessage` (the
`switch` statement), after the peer upsert and the acknowledgement. -/
def pcDispatch (s : PinCommState) (doc : PCDoc) (sender messageId : String)
    (messageType : Nat) (now : Nat) : PinCommState × List PCEvent :=
  if messageType = MSG_TYPE_PIN_CONTROL then
    let pin := doc.pin.getD 0
    let value := doc.value.getD 0
    let r := (s.subscriptions.take s.subscriptionCount).foldl
      (fun (acc : Bool × List PCEvent) sub =>
        if sub.active ∧ sub.typ = MSG_TYPE_PIN_CONTROL ∧ sub.pin = pin
            ∧ sub.targetBoard = sender then
          match sub.callback with
          | some cb => (true, acc.2 ++ [PCEvent.pinChangeCall cb sender pin value])
          | none => acc
        else acc)
      (false, [])
    if r.1 = false ∧ s.pinControlConfirmCallback.isSome then
      match s.pinControlConfirmCallback with
      | some cb => (s, r.2 ++ [PCEvent.confirmCall cb sender pin value true])
      | none => (s, r.2)
    else (s, r.2)
  else if messageType = MSG_TYPE_PIN_READ_REQUEST then
    let pin := doc.pin.getD 0
    let value := digitalReadValue pin
    let rdoc : PCDoc :=
      { id := some messageId, sender := some s.boardId,
        pin := some pin, value := some value, success := some true }
    let r := pcSendMessage s sender MSG_TYPE_PIN_READ_RESPONSE rdoc now
    (r.1, r.2.1)
  else if messageType = MSG_TYPE_PIN_READ_RESPONSE then
    (pcQueuePinReadResponse s sender (doc.pin.getD 0) (doc.value.getD 0)
      (doc.success.getD false) messageId now, [])
  else if messageType = MSG_TYPE_ACKNOWLEDGEMENT then
    match doc.ackId with
    | some ackMessageId => pcHandleAcknowledgement s sender ackMessageId
    | none => (s, [])
  else if messageType = MSG_TYPE_DISCOVERY then
    pcHandleDiscovery s sender now
  else if messageType = MSG_TYPE_DISCOVERY_RESPONSE then
    (s, [])
  else if messageType = MSG_TYPE_PIN_PUBLISH then
    let pin := doc.pin.getD 0
    let value := doc.value.getD 0
    (s, (s.subscriptions.take s.subscriptionCount).foldl
      (fun acc sub =>
        if sub.active ∧ sub.typ = MSG_TYPE_PIN_PUBLISH ∧ sub.pin = pin
            ∧ sub.targetBoard = sender then
          match sub.callback with
          | some cb => acc ++ [PCEvent.pinChangeCall cb sender pin value]
          | none => acc
        else acc)
      [])
  else if messageType = MSG_TYPE_MESSAGE then
    match doc.topic, doc.message with
    | some topic, some message =>
      (s, (s.subscriptions.take s.subscriptionCount).foldl
        (fun acc sub =>
          if sub.active ∧ sub.typ = MSG_TYPE_MESSAGE ∧ sub.topic = topic then
            match sub.callback with
            | some cb => acc ++ [PCEvent.messageCall cb sender topic message]
            | none => acc
          else acc)
        [])
    | _, _ => (s, [])
  else if messageType = MSG_TYPE_DIRECT_MESSAGE then
    match doc.message, s.directMessageCallback with
    | some message, some cb => (s, [PCEvent.messageCall cb sender "" message])
    | _, _ => (s, [])
  else if messageType = MSG_TYPE_SERIAL_DATA then
    match doc.data, s.serialDataCallback with
    | some d, some cb => (s, [PCEvent.serialDataCall cb sender d])
    | _, _ => (s, [])
  else (s, [])

/-- Full receive path for one parsed document
(`PinComm::processIncomingMessage`): reject documents missing `sender` or
`id`, drop frames from self before any state change, upsert the sender as
a peer, acknowledge every non-acknowledgement kind, then dispatch. -/
def pcProcessIncomingMessage (s : PinCommState) (doc : PCDoc) (now : Nat) :
    PinCommState × List PCEvent :=
  match doc.sender, doc.id with
  | some sender, some messageId =>
    if sender = s.boardId then (s, [])
    else
      let messageType := doc.typ.getD 0
      let r1 := pcAddPeer s sender now
      let s1 := r1.1
      let r2 :=
        if s1.acknowledgementsEnabled ∧ messageType ≠ MSG_TYPE_ACKNOWLEDGEMENT then
          pcSendAcknowledgement s1 sender messageId now
        else (s1, [])
      let r3 := pcDispatch r2.1 doc sender messageId messageType now
      (r3.1, r1.2.1 ++ r2.2 ++ r3.2)
  | _, _ => (s, [])

/-- Retry-count setter (`PinComm::setPinControlMaxRetries`), clamped to at
most 10. -/
def pcSetPinControlMaxRetries (s : PinCommState) (maxRetries : Nat) : PinCommState :=
  { s with pinControlMaxRetries := if 10 < maxRetries then 10 else maxRetries }

/-- Retry-delay setter (`PinComm::setPinControlRetryDelay`), clamped to
the interval `[50, MAX_RETRY_DELAY]`. -/
def pcSetPinControlRetryDelay (s : PinCommState) (retryDelayMs : Nat) : PinCommState :=
  { s with pinControlRetryDelay :=
      if retryDelayMs < 50 then 50
      else if MAX_RETRY_DELAY < retryDelayMs then MAX_RETRY_DELAY
      else retryDelayMs }

/-! ## NetworkCore model (`src/NetworkCore.cpp`) -/

/-- Largest `uint32_t` value (`UINT32_MAX`). -/
def UINT32_MAX : Nat := 4294967295

/-- Peer slot of the ESP-NOW registry (`NetworkCore::PeerInfo`). -/
structure NCPeer where
  boardId : String := ""
  macAddress : List Nat := [0, 0, 0, 0, 0, 0]
  active : Bool := false
  lastSeen : Nat := 0
deriving Repr, DecidableEq, Inhabited

/-- Tracked-message slot of the ESP-NOW engine
(`NetworkCore::MessageTrack`). -/
structure NCTrack where
  messageId : String := ""
  targetBoard : String := ""
  acknowledged : Bool := false
  sentTime : Nat := 0
  active : Bool := false
  messageType : Nat := 0
  confirmCallback : Option Nat := none
  pin : Nat := 0
  value : Nat := 0
deriving Repr, DecidableEq, Inhabited

/-- ArduinoJson document used on the ESP-NOW side (keys `sender`, `type`,
`messageId` and the kind-specific payload fields). -/
structure NCDoc where
  sender : Option String := none
  typ : Option Nat := none
  messageId : Option String := none
  pin : Option Nat := none
  value : Option Nat := none
  topic : Option String := none
  message : Option String := none
  data : Option String := none
deriving Repr, DecidableEq

/-- Observable actions of the NetworkCore/NetworkDiscovery model. -/
inductive NCEvent where
  | espNowSend (mac : List Nat) (messageType : Nat) (doc : NCDoc)
  | espNowBroadcast (messageType : Nat) (doc : NCDoc)
  | discoveryCall (cb : Nat) (board : String)
deriving Repr, DecidableEq

/-- Mutable state of a `NetworkCore` instance. -/
structure NCState where
  boardId : String := ""
  isConnected : Bool := true
  acknowledgementsEnabled : Bool := true
  trackedMessages : List NCTrack := List.replicate MAX_TRACKED_MESSAGES {}
  trackedMessageCount : Nat := 0
  peers : List NCPeer := List.replicate MAX_PEERS {}
  peerCount : Nat := 0
deriving Repr, DecidableEq

/-- MAC lookup (`NetworkCore::getMacForBoardId`): first active peer slot
with the given board id. -/
def ncGetMacForBoardId (s : NCState) (boardId : String) : Option (List Nat) :=
  (s.peers.find? (fun p => p.active && p.boardId == boardId)).map (·.macAddress)

/-- Reverse lookup (`NetworkCore::getBoardIdForMac`): the all-`0xFF`
broadcast pseudo-address always resolves, otherwise the first active slot
with the given MAC. -/
def ncGetBoardIdForMac (s : NCState) (mac : List Nat) : Option String :=
  if mac = List.replicate 6 0xFF then some "broadcast"
  else (s.peers.find? (fun p => p.active && p.macAddress == mac)).map (·.boardId)

/-- Peer upsert of the ESP-NOW registry (`NetworkCore::addPeer`): refresh
`lastSeen` for a known active id, otherwise insert into the first
inactive slot, else overwrite the slot with the smallest `lastSeen`
(scan initialised with `UINT32_MAX`).  The C code indexes the array with
`-1` if no slot qualifies; that is unreachable for `millis()` timestamps
and modelled as a no-op. -/
def ncAddPeer (s : NCState) (boardId : String) (mac : List Nat) (now : Nat) :
    NCState × Bool :=
  match s.peers.findIdx? (fun p => p.active && p.boardId == boardId) with
  | some i =>
    let p := s.peers.getD i {}
    ({ s with peers := s.peers.set i { p with lastSeen := now } }, true)
  | none =>
    let slot? :=
      match s.peers.findIdx? (fun p => p.active = false) with
      | some j => some j
      | none => oldestScan (s.peers.map (·.lastSeen)) UINT32_MAX
    match slot? with
    | none => (s, true)
    | some j =>
      ({ s with
          peers := s.peers.set j
            { boardId := boardId, macAddress := mac, active := true, lastSeen := now }
          peerCount := if s.peerCount < MAX_PEERS then s.peerCount + 1 else s.peerCount },
       true)

/-- Serialized length of an ESP-NOW document (model of `serializeJson`
into the unbounded `String`, as the length of the JSON text of the
present fields). -/
def ncSerializedLen (messageType : Nat) (d : NCDoc) : Nat :=
  1 + ("type".length + (toString messageType).length + 4)
    + optStrFieldLen "sender" d.sender + optStrFieldLen "messageId" d.messageId
    + optNatFieldLen "pin" d.pin + optNatFieldLen "value" d.value
    + optStrFieldLen "topic" d.topic + optStrFieldLen "message" d.message
    + optStrFieldLen "data" d.data

/-- Unicast send (`NetworkCore::sendMessage`): resolve the target MAC,
copy the document, add sender and type, attach a fresh `messageId` and a
tracking slot when acknowledgements are enabled and the kind is not an
acknowledgement, then enforce the ESP-NOW size ceiling before handing the
frame to `esp_now_send`. -/
def ncSendMessage (s : NCState) (targetBoard : String) (messageType : Nat)
    (doc : NCDoc) (freshId : String) (now : Nat) : NCState × List NCEvent × Bool :=
  if s.isConnected = false ∨ targetBoard.length = 0 then (s, [], false)
  else
    match ncGetMacForBoardId s targetBoard with
    | none => (s, [], false)
    | some targetMac =>
      let track := s.acknowledgementsEnabled ∧ messageType ≠ MSG_TYPE_ACKNOWLEDGEMENT
      let outDoc := { doc with sender := some s.boardId, typ := some messageType,
                               messageId := if track then some freshId else doc.messageId }
      let s1 :=
        if track then
          match s.trackedMessages.findIdx? (fun t => t.active = false) with
          | some j =>
            let t0 := s.trackedMessages.getD j {}
            { s with
              trackedMessages := s.trackedMessages.set j
                { t0 with messageId := freshId, targetBoard := targetBoard,
                          acknowledged := false, sentTime := now, active := true,
                          messageType := messageType }
              trackedMessageCount := s.trackedMessageCount + 1 }
          | none => s
        else s
      if MAX_ESP_NOW_DATA_SIZE < ncSerializedLen messageType outDoc + 1 then
        (s1, [], false)
      else
        (s1, [NCEvent.espNowSend targetMac messageType outDoc], true)

/-- Broadcast send (`NetworkCore::broadcastMessage`): add sender and
type, enforce the ESP-NOW size ceiling, then hand the frame to
`esp_now_send` on the broadcast address; no tracking, no message id. -/
def ncBroadcastMessage (s : NCState) (messageType : Nat) (doc : NCDoc) :
    NCState × List NCEvent × Bool :=
  if s.isConnected = false then (s, [], false)
  else
    let outDoc := { doc with sender := some s.boardId, typ := some messageType }
    if MAX_ESP_NOW_DATA_SIZE < ncSerializedLen messageType outDoc + 1 then
      (s, [], false)
    else
      (s, [NCEvent.espNowBroadcast messageType outDoc], true)

/-- Incoming acknowledgement (`NetworkCore::handleAcknowledgement`): mark
the first active tracked slot with the given message id acknowledged. -/
def ncHandleAcknowledgement (s : NCState) (messageId : String) : NCState :=
  match s.trackedMessages.findIdx? (fun t => t.active && t.messageId == messageId) with
  | some i =>
    let t := s.trackedMessages.getD i {}
    { s with trackedMessages := s.trackedMessages.set i { t with acknowledged := true } }
  | none => s

/-! ## NetworkDiscovery model (`src/NetworkDiscovery.cpp`) -/

/-- Discovery timing state (`NetworkDiscovery`'s private fields). -/
structure NDState where
  firstMinuteDiscovery : Bool := true
  firstFiveMinutesDiscovery : Bool := true
  discoveryStartTime : Nat := 0
  lastDiscoveryBroadcast : Nat := 0
deriving Repr, DecidableEq

/-- Session start (`NetworkDiscovery::begin`): record the activation time
and broadcast immediately; `_lastDiscoveryBroadcast` is left unchanged. -/
def ndBegin (s : NDState) (now : Nat) : NDState :=
  { s with discoveryStartTime := now }

/-- Periodic discovery step (`NetworkDiscovery::update`).  Returns the
new state, whether a presence broadcast was sent this tick, and the
broadcast interval the tick compared against.  The interval starts at
`INITIAL_DISCOVERY_INTERVAL` and is replaced by the slower one only in
the tick in which the corresponding first-time flag is cleared. -/
def ndUpdate (s : NDState) (connected : Bool) (now : Nat) :
    NDState × Bool × Nat :=
  if connected = false then (s, false, 0)
  else
    let r1 :=
      if s.firstMinuteDiscovery ∧ sub32 now s.discoveryStartTime > 60000 then
        (false, ACTIVE_DISCOVERY_INTERVAL)
      else (s.firstMinuteDiscovery, INITIAL_DISCOVERY_INTERVAL)
    let r2 :=
      if s.firstFiveMinutesDiscovery ∧ sub32 now s.discoveryStartTime > 300000 then
        (false, STABLE_DISCOVERY_INTERVAL)
      else (s.firstFiveMinutesDiscovery, r1.2)
    let s1 := { s with firstMinuteDiscovery := r1.1, firstFiveMinutesDiscovery := r2.1 }
    if sub32 now s.lastDiscoveryBroadcast > r2.2 then
      ({ s1 with lastDiscoveryBroadcast := now }, true, r2.2)
    else (s1, false, r2.2)

/-- NetworkDiscovery together with the core it feeds. -/
structure NDSystem where
  core : NCState
  discoveryCallback : Option Nat := none
deriving Repr, DecidableEq

/-- Discovery-frame handler (`NetworkDiscovery::handleDiscovery`): ignore
frames from self, upsert the sender into the core's peer registry, invoke
the discovery callback (the source invokes it on every frame, known peer
or not), and unicast a discovery response through the core. -/
def ndHandleDiscovery (sys : NDSystem) (senderId : String) (senderMac : List Nat)
    (now : Nat) : NDSystem × List NCEvent :=
  if senderId = sys.core.boardId then (sys, [])
  else
    let r1 := ncAddPeer sys.core senderId senderMac now
    let evCb :=
      match sys.discoveryCallback with
      | some cb => [NCEvent.discoveryCall cb senderId]
      | none => []
    let r2 := ncSendMessage r1.1 senderId MSG_TYPE_DISCOVERY_RESPONSE {}
      (genMessageId now) now
    ({ sys with core := r2.1 }, evCb ++ r2.2.1)

/-- Classifier for events that hand bytes to the UART transport
(a `sendFrame` call), as opposed to callback invocations. -/
def isTransmitEvent : PCEvent → Bool
  | PCEvent.frameSent _ _ _ => true
  | PCEvent.broadcastSent _ _ => true
  | _ => false

/-- Classifier for per-message pin-control confirmation-callback
invocations. -/
def isConfirmEvent : PCEvent → Bool
  | PCEvent.confirmCall _ _ _ _ _ => true
  | _ => false

/-! ## Concrete scenario states used by individual claim theorems -/

/-- C1 scenario: board `"A"` with peer `"B"`, pin-control max retries set
to 1, defaults otherwise. -/
def c1s0 : PinCommState :=
  pcSetPinControlMaxRetries
    ((pcAddPeer { boardId := "A", isConnected := true } "B" 0).1) 1

/-- C1 scenario: tracked pin-control send to `"B"` with per-message
confirmation callback pointer `1` at time 0. -/
def c1send : PinCommState × List PCEvent × Bool :=
  pcControlRemotePin c1s0 "B" 5 1 (some 1) "m1" 0

/-- C1 scenario: first periodic update after the acknowledgement timeout. -/
def c1u1 : PinCommState × List PCEvent := pcUpdate c1send.1 5001

/-- C1 scenario: update at the scheduled retry time. -/
def c1u2 : PinCommState × List PCEvent := pcUpdate c1u1.1 5501

/-- C1 scenario: update after the retried send timed out again. -/
def c1u3 : PinCommState × List PCEvent := pcUpdate c1u2.1 10502

/-- C2 scenario: like the C1 scenario but with max retries set to 2. -/
def c2s0 : PinCommState :=
  pcSetPinControlMaxRetries
    ((pcAddPeer { boardId := "A", isConnected := true } "B" 0).1) 2

/-- C2 scenario: tracked pin-control send to `"B"` with callback
pointer 1 at time 0. -/
def c2send : PinCommState × List PCEvent × Bool :=
  pcControlRemotePin c2s0 "B" 5 1 (some 1) "m1" 0

/-- C2 scenario: first periodic update after the acknowledgement
timeout, before any retry has been transmitted. -/
def c2u1 : PinCommState × List PCEvent := pcUpdate c2send.1 5001

/-- C3 scenario: an ESP-NOW system for board `"A"` with discovery
callback pointer `7` registered. -/
def c3sys0 : NDSystem :=
  { core := { boardId := "A", isConnected := true }, discoveryCallback := some 7 }

/-- C3 scenario: first discovery frame from the unknown peer `"B"`. -/
def c3r1 : NDSystem × List NCEvent :=
  ndHandleDiscovery c3sys0 "B" [1, 2, 3, 4, 5, 6] 100

/-- C3 scenario: second discovery frame from the now-known peer `"B"`. -/
def c3r2 : NDSystem × List NCEvent :=
  ndHandleDiscovery c3r1.1 "B" [1, 2, 3, 4, 5, 6] 200

/-- C4 scenario: a full UART peer table whose twenty distinct entries
were all last seen at time 100. -/
def c4peersFull : List PCPeer :=
  (List.range MAX_PEERS).map
    (fun i => { boardId := "P" ++ toString i, active := true, lastSeen := 100 })

/-- C4 scenario: UART state with the full peer table. -/
def c4s0 : PinCommState :=
  { boardId := "A", isConnected := true, peers := c4peersFull,
    peerCount := MAX_PEERS }

/-- C8 scenario: board `"A"` with peer `"B"`. -/
def c8s0 : PinCommState :=
  (pcAddPeer { boardId := "A", isConnected := true } "B" 0).1

/-- C8 scenario: after a tracked pin-read request to `"B"` whose slot
stores the response callback pointer `9`. -/
def c8s1 : PinCommState := (pcReadRemotePin c8s0 "B" 4 (some 9) "r1" 10).1

/-- C7 scenario: a 300-character string whose serialization cannot fit a
250-byte frame. -/
def c7bigData : String := String.mk (List.replicate 300 'x')

/-- C1 amended-claim scenario: one active tracked pin-control message
(id `"m1"` to `"B"`, callback pointer `1`, sent at time 0), max
retries 1. -/
def c1amState : PinCommState :=
  { boardId := "A", isConnected := true, pinControlMaxRetries := 1,
    trackedMessageCount := 1,
    trackedMessages :=
      { messageId := "m1", targetBoard := "B", active := true,
        messageType := MSG_TYPE_PIN_CONTROL, confirmCallback := some 1 }
        :: List.replicate 9 {} }

/-- C2 amended-claim scenario A: single tracked pin-control slot with
retries remaining (max retries 2). -/
def c2amA : PinCommState :=
  { boardId := "A", isConnected := true, pinControlMaxRetries := 2,
    trackedMessageCount := 1,
    trackedMessages :=
      { messageId := "m1", targetBoard := "B", active := true,
        messageType := MSG_TYPE_PIN_CONTROL, confirmCallback := some 1 }
        :: List.replicate 9 {} }

/-- C2 amended-claim scenario B: the same slot with its retries
exhausted (max retries 0). -/
def c2amB : PinCommState :=
  { boardId := "A", isConnected := true, pinControlMaxRetries := 0,
    trackedMessageCount := 1,
    trackedMessages :=
      { messageId := "m1", targetBoard := "B", active := true,
        messageType := MSG_TYPE_PIN_CONTROL, confirmCallback := some 1 }
        :: List.replicate 9 {} }

/-- C2 amended-claim scenario C: a slot with a due scheduled retry that
has not yet timed out again. -/
def c2amC : PinCommState :=
  { boardId := "A", isConnected := true,
    trackedMessageCount := 1,
    trackedMessages :=
      { messageId := "m1", targetBoard := "B", active := true,
        messageType := MSG_TYPE_PIN_CONTROL, confirmCallback := some 1,
        sentTime := 5001, retryCount := 1, nextRetryTime := 5501,
        retryScheduled := true, pin := 5, value := 1 }
        :: List.replicate 9 {} }

/-- C4 scenario: ESP-NOW registry with a full peer table of distinct ids,
distinct MACs and a unique oldest entry in the last slot. -/
def c4nc : NCState :=
  { boardId := "A",
    peers := (List.range MAX_PEERS).map
      (fun i => { boardId := "N" ++ toString i, macAddress := [1, 2, 3, 4, 5, i],
                  active := true, lastSeen := 1000 - 10 * i }),
    peerCount := MAX_PEERS }

/-- C4 scenario: UART state with a full peer table of distinct ids and a
unique oldest entry strictly older than the insertion time. -/
def c4pc : PinCommState :=
  { boardId := "A", isConnected := true,
    peers := (List.range MAX_PEERS).map
      (fun i => { boardId := "Q" ++ toString i, active := true,
                  lastSeen := 1000 - 10 * i }),
    peerCount := MAX_PEERS }

/-! ## General lemmas about the embedding -/

/-- On in-range inputs with `b ≤ a`, wrapping subtraction is plain
subtraction. -/
theorem sub32_of_le {a b : Nat} (hb : b ≤ a) (ha : a < 4294967296) :
    sub32 a b = a - b := by
  unfold sub32
  have h1 : a + 4294967296 - b = (a - b) + 4294967296 := by omega
  rw [h1, Nat.add_mod_right, Nat.mod_eq_of_lt (by omega)]

/-- A successful `findIdx?` yields an in-range index whose element
satisfies the predicate. -/
theorem findIdx?_some_prop {α : Type} {p : α → Bool} {l : List α} {i : Nat}
    (h : l.findIdx? p = some i) :
    ∃ hi : i < l.length, p (l[i]) = true := by
  rcases List.findIdx?_eq_some_iff_findIdx_eq.mp h with ⟨hlen, hidx⟩
  refine ⟨hlen, ?_⟩
  have := @List.findIdx_getElem _ p l (by omega)
  simpa [hidx] using this

/-- Peer upsert emits only discovery-callback events, never a
transmission. -/
theorem pcAddPeer_events_shape (s : PinCommState) (boardId : String) (now : Nat) :
    (pcAddPeer s boardId now).2.1 = [] ∨
    ∃ cb, (pcAddPeer s boardId now).2.1 = [PCEvent.discoveryCall cb boardId] := by
  unfold pcAddPeer
  simp only [apply_ite (f := fun x : PinCommState × List PCEvent × Bool => x.2.1)]
  repeat' split
  all_goals simp_all

/-- Peer upsert never transmits a frame by itself. -/
theorem pcAddPeer_no_transmit (s : PinCommState) (boardId : String) (now : Nat) :
    ∀ e ∈ (pcAddPeer s boardId now).2.1, isTransmitEvent e = false := by
  intro e he
  rcases pcAddPeer_events_shape s boardId now with h | ⟨cb, h⟩ <;> rw [h] at he
  · simp at he
  · simp at he
    subst he
    rfl

/-- Shape of the events emitted by the acknowledgement handler: a
possible success confirm call for the matched slot followed by a possible
send-status call; never a transmission. -/
theorem pcHandleAcknowledgement_no_transmit (s : PinCommState)
    (sender messageId : String) :
    ∀ e ∈ (pcHandleAcknowledgement s sender messageId).2,
      isTransmitEvent e = false := by
  intro e he
  unfold pcHandleAcknowledgement at he
  rcases htr : trackScanIdx (s.trackedMessages.take s.trackedMessageCount)
      sender messageId with _ | i <;> rw [htr] at he
  · simp at he
  · simp only [List.mem_append] at he
    rcases he with he | he
    · by_cases ht : (s.trackedMessages.getD i {}).messageType = MSG_TYPE_PIN_CONTROL
      · rw [if_pos ht] at he
        rcases hcb : (s.trackedMessages.getD i {}).confirmCallback with _ | cb <;>
          simp only [hcb] at he <;> simp_all [isTransmitEvent]
      · rw [if_neg ht] at he
        simp at he
    · rcases hcb : s.sendStatusCallback with _ | cb <;>
        simp only [hcb] at he <;> simp_all [isTransmitEvent]

/-! ## Claim theorems -/

/-- C10: every incoming frame whose sender field equals the receiving
board's own id is dropped by `pcProcessIncomingMessage` before any state
change, for every message kind: the state is returned unchanged and no
peer update, acknowledgement transmission, or callback event occurs. -/
theorem C10_self_frames_dropped (s : PinCommState) (doc : PCDoc) (now : Nat)
    (h : doc.sender = some s.boardId) :
    pcProcessIncomingMessage s doc now = (s, []) := by
  unfold pcProcessIncomingMessage
  rw [h]
  rcases hid : doc.id with _ | mid <;> simp

/-- C10 witness: a concrete pin-control frame from `"A"` arriving at
board `"A"` is dropped with no state change and no events. -/
theorem C10_self_frames_dropped_witness :
    pcProcessIncomingMessage
      { boardId := "A", isConnected := true, pinControlConfirmCallback := some 5 }
      { sender := some "A", id := some "x1", typ := some MSG_TYPE_PIN_CONTROL,
        pin := some 3, value := some 1 } 100
    = ({ boardId := "A", isConnected := true, pinControlConfirmCallback := some 5 }, []) :=
  C10_self_frames_dropped _ _ 100 rfl

/-- C9: an acknowledgement frame is never itself tracked or acknowledged:
`pcSendMessage` of the acknowledgement kind leaves the whole state (in
particular the tracked-message table) unchanged, `ncSendMessage` of the
acknowledgement kind leaves the state unchanged and attaches no fresh
tracking message id to the outgoing document, and an incoming
acknowledgement never causes any outgoing transmission. -/
theorem C9_ack_never_tracked_nor_acked :
    (∀ (s : PinCommState) (targetBoard : String) (doc : PCDoc) (now : Nat),
        (pcSendMessage s targetBoard MSG_TYPE_ACKNOWLEDGEMENT doc now).1 = s)
    ∧ (∀ (s : NCState) (targetBoard : String) (doc : NCDoc) (freshId : String)
          (now : Nat),
        (ncSendMessage s targetBoard MSG_TYPE_ACKNOWLEDGEMENT doc freshId now).1 = s
        ∧ ∀ mac mt d, NCEvent.espNowSend mac mt d ∈
            (ncSendMessage s targetBoard MSG_TYPE_ACKNOWLEDGEMENT doc freshId now).2.1 →
            d.messageId = doc.messageId)
    ∧ (∀ (s : PinCommState) (doc : PCDoc) (now : Nat),
        doc.typ = some MSG_TYPE_ACKNOWLEDGEMENT →
        ∀ e ∈ (pcProcessIncomingMessage s doc now).2, isTransmitEvent e = false) := by
  refine ⟨?_, ?_, ?_⟩
  · intro s targetBoard doc now
    unfold pcSendMessage
    by_cases hc : s.isConnected = false ∨ targetBoard.length = 0
    · rw [if_pos hc]
    · rw [if_neg hc]
      by_cases hlen : pcSerializedLen MSG_TYPE_ACKNOWLEDGEMENT doc = 0 ∨
          MAX_PIN_DATA_SIZE ≤ pcSerializedLen MSG_TYPE_ACKNOWLEDGEMENT doc
      · rw [if_pos hlen]
      · rw [if_neg hlen]
        simp only [MSG_TYPE_ACKNOWLEDGEMENT, ne_eq, not_true_eq_false,
          and_false, if_false]
  · intro s targetBoard doc freshId now
    unfold ncSendMessage
    by_cases hc : s.isConnected = false ∨ targetBoard.length = 0
    · rw [if_pos hc]
      refine ⟨by trivial, ?_⟩
      intro mac mt d hm
      simp at hm
    · rw [if_neg hc]
      rcases hmac : ncGetMacForBoardId s targetBoard with _ | mac0
      · simp only [hmac]
        refine ⟨by trivial, ?_⟩
        intro mac mt d hm
        simp at hm
      · simp only [hmac, MSG_TYPE_ACKNOWLEDGEMENT, ne_eq, not_true_eq_false,
          and_false, if_false]
        constructor
        · split <;> rfl
        · intro mac mt d hm
          split at hm
          · simp at hm
          · simp only [List.mem_singleton] at hm
            cases hm
            rfl
  · intro s doc now htyp e he
    unfold pcProcessIncomingMessage at he
    rcases hsender : doc.sender with _ | sender <;> rw [hsender] at he
    · simp at he
    · rcases hid : doc.id with _ | mid <;> rw [hid] at he
      · simp at he
      · rw [htyp] at he
        dsimp only at he
        by_cases hself : sender = s.boardId
        · rw [if_pos hself] at he
          simp at he
        · rw [if_neg hself] at he
          simp only [Option.getD_some, ne_eq, eq_self_iff_true,
            not_true_eq_false, and_false, if_false, List.append_nil,
            List.mem_append] at he
          rcases he with he | he
          · exact pcAddPeer_no_transmit s sender now e he
          · unfold pcDispatch at he
            simp only [MSG_TYPE_PIN_CONTROL, MSG_TYPE_PIN_READ_REQUEST,
              MSG_TYPE_PIN_READ_RESPONSE, MSG_TYPE_ACKNOWLEDGEMENT] at he
            norm_num at he
            rcases hack : doc.ackId with _ | ackId <;> rw [hack] at he
            · simp at he
            · exact pcHandleAcknowledgement_no_transmit _ sender ackId e he

/-- C9 witness: sending a concrete acknowledgement leaves the state (and
so the tracked table) untouched, and the events of processing a concrete
incoming acknowledgement contain only a (non-transmission) send-status
callback invocation. -/
theorem C9_ack_never_tracked_nor_acked_witness :
    (pcSendMessage
        { boardId := "A", isConnected := true } "B" MSG_TYPE_ACKNOWLEDGEMENT
        { sender := some "A", id := some "a1", ackId := some "m7" } 5).1
      = { boardId := "A", isConnected := true }
    ∧ isTransmitEvent (PCEvent.sendStatusCall 4 "B" 1 true) = false :=
  ⟨C9_ack_never_tracked_nor_acked.1 { boardId := "A", isConnected := true } "B"
      { sender := some "A", id := some "a1", ackId := some "m7" } 5,
   C9_ack_never_tracked_nor_acked.2.2
      { boardId := "A", isConnected := true, sendStatusCallback := some 4,
        trackedMessageCount := 1,
        trackedMessages :=
          { messageId := "m9", targetBoard := "B", active := true,
            messageType := MSG_TYPE_PIN_CONTROL } :: List.replicate 9 {} }
      { sender := some "B", id := some "a2", typ := some MSG_TYPE_ACKNOWLEDGEMENT,
        ackId := some "m9" } 7 rfl
      (PCEvent.sendStatusCall 4 "B" 1 true) (by decide)⟩

/-- C5 (code bug): the discovery broadcaster applies the slower interval
only in the single tick in which a phase flag is cleared; the very next
tick after the 60-second threshold falls back to the 5-second interval
and broadcasts again 5001 ms later, instead of keeping the 20-second
interval. -/
theorem C5_interval_reverts_after_transition :
    (ndUpdate (ndBegin {} 0) true 61000).2.1 = true
    ∧ (ndUpdate (ndBegin {} 0) true 61000).2.2 = ACTIVE_DISCOVERY_INTERVAL
    ∧ (ndUpdate (ndBegin {} 0) true 61000).1.firstMinuteDiscovery = false
    ∧ (ndUpdate (ndUpdate (ndBegin {} 0) true 61000).1 true 66001).2.1 = true
    ∧ (ndUpdate (ndUpdate (ndBegin {} 0) true 61000).1 true 66001).2.2
        = INITIAL_DISCOVERY_INTERVAL := by
  decide

/-- C3 (code bug): `NetworkDiscovery::handleDiscovery` invokes the
registered discovery callback on every received discovery frame, so two
discovery frames from the same already-known sender fire the callback
twice instead of once. -/
theorem C3_discovery_callback_refires :
    (c3r1.2 ++ c3r2.2).count (NCEvent.discoveryCall 7 "B") = 2 := by
  decide

/-- C1 counterexample: for a single tracked pin-control message (id
`"m1"`, callback pointer `1`, max retries 1, never acknowledged), the
completion callback fires with `success = false` at the first timeout
scan and again at the scan after the retry timed out — twice, not
exactly once. -/
theorem C1_counterexample :
    c1send.2.2 = true
    ∧ (c1u1.2 ++ c1u2.2 ++ c1u3.2).count (PCEvent.confirmCall 1 "B" 5 1 false) = 2 := by
  decide

/-- C2 counterexample: with max retries 2 and an unreachable target, the
only transmission before the first timeout is the original frame, and
the first timeout scan already fires the completion callback with
`success = false` while transmitting nothing — the callback does not wait
for the two retransmissions to time out. -/
theorem C2_counterexample :
    c2send.2.1
      = [PCEvent.frameSent MSG_TYPE_PIN_CONTROL "B"
          { sender := some "A", id := some "m1", pin := some 5, value := some 1 }]
    ∧ c2u1.2 = [PCEvent.confirmCall 1 "B" 5 1 false] := by
  decide

/-- C8 counterexample: after `clearRemotePinConfirmCallback`, the active
tracked slot of a pin-read request still holds its non-null per-message
confirmation callback pointer (the clear only touches active pin-control
slots). -/
theorem C8_counterexample :
    ((pcClearRemotePinConfirmCallback c8s1).trackedMessages.getD 0 {}).confirmCallback
        = some 9
    ∧ ((pcClearRemotePinConfirmCallback c8s1).trackedMessages.getD 0 {}).active
        = true := by
  decide

/-- C4 counterexample: in the UART registry, inserting a new id into a
full table in which every entry was last seen at the current millisecond
evicts nothing and fails — the new id does not resolve afterwards,
because the oldest-entry scan starts from `millis()` and finds no entry
strictly older. -/
theorem C4_counterexample :
    pcAddPeer c4s0 "NEW" 100 = (c4s0, [], false)
    ∧ pcIsBoardAvailable (pcAddPeer c4s0 "NEW" 100).1 "NEW" = false := by
  decide

/-- Feeding the stuffed bytes of a payload followed by the end marker
into a mid-frame receiver appends exactly that payload to the buffer and
delivers the result, provided the total stays below the buffer limit. -/
theorem rxFeed_stuffed (p : List Nat) (buf : List Nat)
    (h : buf.length + p.length < MAX_PIN_DATA_SIZE) :
    rxFeed (RxState.mk true false buf) (p.flatMap escapeByte ++ [FRAME_END_BYTE])
      = (RxState.mk false false (buf ++ p), [buf ++ p]) := by
  induction p generalizing buf with
  | nil =>
    simp [rxFeed, rxStep, FRAME_END_BYTE, ESCAPE_BYTE, FRAME_START_BYTE]
  | cons b rest ih =>
    have hlt : ¬ (MAX_PIN_DATA_SIZE ≤ buf.length) := by
      simp [MAX_PIN_DATA_SIZE] at h ⊢; omega
    have hrec := ih (buf ++ [b]) (by simp at h ⊢; omega)
    simp only [FRAME_END_BYTE] at hrec
    have hlt1' : ¬ (MAX_PIN_DATA_SIZE ≤ buf.length + 1) := by
      simp [MAX_PIN_DATA_SIZE] at h ⊢; omega
    by_cases hb : b = FRAME_START_BYTE ∨ b = FRAME_END_BYTE ∨ b = ESCAPE_BYTE
    · rw [List.flatMap_cons]
      rw [show escapeByte b = [ESCAPE_BYTE, b ^^^ 0x20] from by simp [escapeByte, hb]]
      simp only [List.cons_append, List.nil_append, rxFeed, rxStep, rxLimit]
      norm_num [ESCAPE_BYTE, FRAME_END_BYTE, FRAME_START_BYTE, hlt, hlt1']
      rw [Nat.xor_cancel_right]
      rw [hrec]
      simp
    · have hbne : escapeByte b = [b] := by
        simp [escapeByte, hb]
      push_neg at hb
      simp only [FRAME_START_BYTE, FRAME_END_BYTE, ESCAPE_BYTE] at hb
      rw [List.flatMap_cons, hbne]
      simp only [List.cons_append, List.nil_append, rxFeed, rxStep, rxLimit]
      norm_num [ESCAPE_BYTE, FRAME_END_BYTE, FRAME_START_BYTE, hlt1',
        hb.1, hb.2.1, hb.2.2]
      rw [hrec]
      simp

/-- C6: for every payload shorter than the frame-size limit — including
payloads containing the start, end and escape marker bytes back-to-back —
feeding the byte sequence produced by `sendFrame` into the `receiveFrame`
unescaping state machine delivers exactly the original payload. -/
theorem C6_framing_roundtrip (p bs : List Nat)
    (hsend : pcSendFrame true p = some bs)
    (hlen : p.length < MAX_PIN_DATA_SIZE) :
    rxFeed rxInit bs = (RxState.mk false false p, [p]) := by
  unfold pcSendFrame at hsend
  by_cases hp : p = []
  · simp [hp] at hsend
  · rw [if_neg (by simp [hp])] at hsend
    injection hsend with hbs
    subst hbs
    have hstuff := rxFeed_stuffed p [] (by simpa using hlen)
    simp only [List.nil_append] at hstuff
    simp only [List.append_assoc, List.cons_append, List.nil_append]
    simp [rxFeed, rxStep, rxInit, FRAME_START_BYTE, FRAME_END_BYTE] at hstuff ⊢
    rw [hstuff]

/-- C6 witness: the payload `[0x7E, 0x7F, 0x7D, 0x7D, 0x00]` — all three
reserved marker bytes, with two escape markers back-to-back — frames to a
concrete stuffed byte string and unescapes back to itself. -/
theorem C6_framing_roundtrip_witness :
    rxFeed rxInit [126, 125, 94, 125, 95, 125, 93, 125, 93, 0, 127]
      = (RxState.mk false false [126, 127, 125, 125, 0],
         [[126, 127, 125, 125, 0]]) :=
  C6_framing_roundtrip [126, 127, 125, 125, 0] _ (by decide) (by decide)

/-- C7: whenever the serialized envelope would exceed the maximum frame
size (250 bytes), the unicast and broadcast send helpers of both the
ESP-NOW core and the UART implementation return `false` and hand nothing
to the transport: the size guard runs before `esp_now_send` /
`sendFrame`, so encoding fails closed. -/
theorem C7_size_guard_fails_closed :
    (∀ (s : NCState) (targetBoard : String) (messageType : Nat) (doc : NCDoc)
        (freshId : String) (now : Nat),
      MAX_ESP_NOW_DATA_SIZE <
          ncSerializedLen messageType
            { doc with sender := some s.boardId, typ := some messageType,
                       messageId :=
                         if s.acknowledgementsEnabled
                             ∧ messageType ≠ MSG_TYPE_ACKNOWLEDGEMENT
                         then some freshId else doc.messageId } + 1 →
      (ncSendMessage s targetBoard messageType doc freshId now).2.1 = []
      ∧ (ncSendMessage s targetBoard messageType doc freshId now).2.2 = false)
    ∧ (∀ (s : NCState) (messageType : Nat) (doc : NCDoc),
      MAX_ESP_NOW_DATA_SIZE <
          ncSerializedLen messageType
            { doc with sender := some s.boardId, typ := some messageType } + 1 →
      (ncBroadcastMessage s messageType doc).2.1 = []
      ∧ (ncBroadcastMessage s messageType doc).2.2 = false)
    ∧ (∀ (s : PinCommState) (targetBoard : String) (messageType : Nat)
        (doc : PCDoc) (now : Nat),
      MAX_PIN_DATA_SIZE ≤ pcSerializedLen messageType doc →
      (pcSendMessage s targetBoard messageType doc now).2.1 = []
      ∧ (pcSendMessage s targetBoard messageType doc now).2.2 = false)
    ∧ (∀ (s : PinCommState) (messageType : Nat) (doc : PCDoc),
      MAX_PIN_DATA_SIZE ≤ pcSerializedLen messageType doc →
      (pcBroadcastMessage s messageType doc).2.1 = []
      ∧ (pcBroadcastMessage s messageType doc).2.2 = false) := by
  refine ⟨?_, ?_, ?_, ?_⟩
  · intro s targetBoard messageType doc freshId now hbig
    unfold ncSendMessage
    by_cases hc : s.isConnected = false ∨ targetBoard.length = 0
    · rw [if_pos hc]; exact ⟨rfl, rfl⟩
    · rw [if_neg hc]
      rcases hmac : ncGetMacForBoardId s targetBoard with _ | mac0
      · simp [hmac]
      · simp only [hmac]
        rw [if_pos hbig]
        exact ⟨rfl, rfl⟩
  · intro s messageType doc hbig
    unfold ncBroadcastMessage
    by_cases hc : s.isConnected = false
    · rw [if_pos hc]; exact ⟨rfl, rfl⟩
    · rw [if_neg hc]
      rw [if_pos hbig]
      exact ⟨rfl, rfl⟩
  · intro s targetBoard messageType doc now hbig
    unfold pcSendMessage
    by_cases hc : s.isConnected = false ∨ targetBoard.length = 0
    · rw [if_pos hc]; exact ⟨rfl, rfl⟩
    · rw [if_neg hc]
      rw [if_pos (Or.inr hbig)]
      exact ⟨rfl, rfl⟩
  · intro s messageType doc hbig
    unfold pcBroadcastMessage
    by_cases hc : s.isConnected = false
    · rw [if_pos hc]; exact ⟨rfl, rfl⟩
    · rw [if_neg hc]
      rw [if_pos (Or.inr hbig)]
      exact ⟨rfl, rfl⟩

set_option maxRecDepth 8192 in
/-- C7 witness: a serial-data envelope carrying a 300-character string
exceeds the 250-byte ceiling and all four send helpers reject it without
emitting anything. -/
theorem C7_size_guard_fails_closed_witness :
    ((ncSendMessage { boardId := "A" } "B" MSG_TYPE_SERIAL_DATA
        { data := some c7bigData } "f1" 5).2.1 = []
      ∧ (ncSendMessage { boardId := "A" } "B" MSG_TYPE_SERIAL_DATA
          { data := some c7bigData } "f1" 5).2.2 = false)
    ∧ ((ncBroadcastMessage { boardId := "A" } MSG_TYPE_SERIAL_DATA
          { data := some c7bigData }).2.1 = []
      ∧ (ncBroadcastMessage { boardId := "A" } MSG_TYPE_SERIAL_DATA
          { data := some c7bigData }).2.2 = false)
    ∧ ((pcSendMessage { boardId := "A", isConnected := true } "B"
          MSG_TYPE_SERIAL_DATA { data := some c7bigData } 5).2.1 = []
      ∧ (pcSendMessage { boardId := "A", isConnected := true } "B"
          MSG_TYPE_SERIAL_DATA { data := some c7bigData } 5).2.2 = false)
    ∧ ((pcBroadcastMessage { boardId := "A", isConnected := true }
          MSG_TYPE_SERIAL_DATA { data := some c7bigData }).2.1 = []
      ∧ (pcBroadcastMessage { boardId := "A", isConnected := true }
          MSG_TYPE_SERIAL_DATA { data := some c7bigData }).2.2 = false) :=
  ⟨C7_size_guard_fails_closed.1 _ "B" _ _ "f1" 5 (by decide),
   C7_size_guard_fails_closed.2.1 _ _ _ (by decide),
   C7_size_guard_fails_closed.2.2.1 _ "B" _ _ 5 (by decide),
   C7_size_guard_fails_closed.2.2.2 _ _ _ (by decide)⟩

/-- A tracked slot that is active, unacknowledged, of the pin-control
kind, holding a callback, and timed out fires its confirmation callback
with failure during the per-slot step of `PinComm::update` — regardless
of the retry counter. -/
theorem processTrackedSlot_timeout_fires (s : PinCommState) (now i c : Nat)
    (hact : (s.trackedMessages.getD i {}).active = true)
    (hack : (s.trackedMessages.getD i {}).acknowledged = false)
    (htyp : (s.trackedMessages.getD i {}).messageType = MSG_TYPE_PIN_CONTROL)
    (hcb : (s.trackedMessages.getD i {}).confirmCallback = some c)
    (hto : sub32 now (s.trackedMessages.getD i {}).sentTime > ACK_TIMEOUT) :
    PCEvent.confirmCall c (s.trackedMessages.getD i {}).targetBoard
      (s.trackedMessages.getD i {}).pin (s.trackedMessages.getD i {}).value false
      ∈ (processTrackedSlot s now i).2 := by
  unfold processTrackedSlot
  dsimp only
  rw [show ((s.trackedMessages.getD i {}).active
        && !(s.trackedMessages.getD i {}).acknowledged) = true from by
      rw [hact, hack]; rfl]
  rw [if_pos rfl]
  rw [if_pos hto, if_pos htyp]
  simp only [hcb]
  repeat' split
  all_goals simp

/-- When the slot additionally has retries enabled and retries remaining,
the timeout step leaves it active with the same callback, id, board, pin
and value, bumping only the retry bookkeeping and `sentTime`. -/
theorem processTrackedSlot_timeout_retry_state (s : PinCommState) (now i c : Nat)
    (hlen : s.trackedMessages.length = MAX_TRACKED_MESSAGES)
    (hi : i < MAX_TRACKED_MESSAGES)
    (hact : (s.trackedMessages.getD i {}).active = true)
    (hack : (s.trackedMessages.getD i {}).acknowledged = false)
    (htyp : (s.trackedMessages.getD i {}).messageType = MSG_TYPE_PIN_CONTROL)
    (hcb : (s.trackedMessages.getD i {}).confirmCallback = some c)
    (hto : sub32 now (s.trackedMessages.getD i {}).sentTime > ACK_TIMEOUT)
    (hre : s.pinControlRetriesEnabled = true)
    (hcount : (s.trackedMessages.getD i {}).retryCount < s.pinControlMaxRetries)
    (hdelay : 0 < s.pinControlRetryDelay) :
    (processTrackedSlot s now i).1.trackedMessages.getD i {} =
      { s.trackedMessages.getD i {} with
          retryCount := (s.trackedMessages.getD i {}).retryCount + 1,
          nextRetryTime := now + s.pinControlRetryDelay,
          retryScheduled := true,
          sentTime := now } := by
  have hset : ∀ tr : MessageTrack, (s.trackedMessages.set i tr).getD i {} = tr := by
    intro tr
    rw [List.getD_eq_getElem _ _ (by rw [List.length_set, hlen]; exact hi)]
    exact List.getElem_set_self _
  unfold processTrackedSlot
  dsimp only
  rw [show ((s.trackedMessages.getD i {}).active
        && !(s.trackedMessages.getD i {}).acknowledged) = true from by
      rw [hact, hack]; rfl]
  rw [if_pos rfl]
  rw [if_pos hto, if_pos htyp]
  simp only [hcb]
  have hcond2 : s.pinControlRetriesEnabled = true
      ∧ (s.trackedMessages.getD i {}).messageType = MSG_TYPE_PIN_CONTROL
      ∧ (s.trackedMessages.getD i {}).retryCount < s.pinControlMaxRetries :=
    ⟨hre, htyp, hcount⟩
  rw [if_pos hcond2]
  dsimp only
  rw [hset]
  rw [if_neg (by
    intro hcond
    have h2 := hcond.2
    dsimp only at h2
    omega)]
  dsimp only
  rw [hset]

/-- A matching acknowledgement fires the per-message callback with
success and deactivates the matched slot. -/
theorem pcHandleAcknowledgement_success (s : PinCommState)
    (sender messageId : String) (i c : Nat)
    (hlen : s.trackedMessages.length = MAX_TRACKED_MESSAGES)
    (hi : i < MAX_TRACKED_MESSAGES)
    (hfind : trackScanIdx (s.trackedMessages.take s.trackedMessageCount)
        sender messageId = some i)
    (htyp : (s.trackedMessages.getD i {}).messageType = MSG_TYPE_PIN_CONTROL)
    (hcb : (s.trackedMessages.getD i {}).confirmCallback = some c) :
    PCEvent.confirmCall c (s.trackedMessages.getD i {}).targetBoard
        (s.trackedMessages.getD i {}).pin (s.trackedMessages.getD i {}).value true
      ∈ (pcHandleAcknowledgement s sender messageId).2
    ∧ ((pcHandleAcknowledgement s sender messageId).1.trackedMessages.getD i {}).active
        = false := by
  have hset : ∀ tr : MessageTrack, (s.trackedMessages.set i tr).getD i {} = tr := by
    intro tr
    rw [List.getD_eq_getElem _ _ (by rw [List.length_set, hlen]; exact hi)]
    exact List.getElem_set_self _
  unfold pcHandleAcknowledgement
  rw [hfind]
  dsimp only
  rw [if_pos htyp]
  simp only [hcb]
  constructor
  · simp
  · dsimp only
    rw [hset]

/-- C1 (amended): for a tracked pin-control message the completion
callback fires with success at most once — a matching acknowledgement
fires it once and deactivates the slot — but on the timeout path it
fires once per expiry of the acknowledgement timeout: a timed-out slot
with retries remaining fires the failure callback, stays active with the
same callback, and fires the failure callback again at the next
timed-out scan, so the callback is not invoked exactly once. -/
theorem C1_amended (s : PinCommState) (i c t1 t2 : Nat) (sender mid : String)
    (hlen : s.trackedMessages.length = MAX_TRACKED_MESSAGES)
    (hi : i < MAX_TRACKED_MESSAGES)
    (hact : (s.trackedMessages.getD i {}).active = true)
    (hack : (s.trackedMessages.getD i {}).acknowledged = false)
    (htyp : (s.trackedMessages.getD i {}).messageType = MSG_TYPE_PIN_CONTROL)
    (hcb : (s.trackedMessages.getD i {}).confirmCallback = some c)
    (hto1 : sub32 t1 (s.trackedMessages.getD i {}).sentTime > ACK_TIMEOUT)
    (hre : s.pinControlRetriesEnabled = true)
    (hcount : (s.trackedMessages.getD i {}).retryCount < s.pinControlMaxRetries)
    (hdelay : 0 < s.pinControlRetryDelay)
    (hto2 : sub32 t2 t1 > ACK_TIMEOUT)
    (hfind : trackScanIdx (s.trackedMessages.take s.trackedMessageCount) sender mid
        = some i) :
    (PCEvent.confirmCall c (s.trackedMessages.getD i {}).targetBoard
        (s.trackedMessages.getD i {}).pin (s.trackedMessages.getD i {}).value false
      ∈ (processTrackedSlot s t1 i).2)
    ∧ ((processTrackedSlot s t1 i).1.trackedMessages.getD i {}).active = true
    ∧ ((processTrackedSlot s t1 i).1.trackedMessages.getD i {}).confirmCallback = some c
    ∧ (PCEvent.confirmCall c (s.trackedMessages.getD i {}).targetBoard
        (s.trackedMessages.getD i {}).pin (s.trackedMessages.getD i {}).value false
      ∈ (processTrackedSlot (processTrackedSlot s t1 i).1 t2 i).2)
    ∧ (PCEvent.confirmCall c (s.trackedMessages.getD i {}).targetBoard
        (s.trackedMessages.getD i {}).pin (s.trackedMessages.getD i {}).value true
      ∈ (pcHandleAcknowledgement s sender mid).2)
    ∧ ((pcHandleAcknowledgement s sender mid).1.trackedMessages.getD i {}).active
        = false := by
  have hstate := processTrackedSlot_timeout_retry_state s t1 i c hlen hi hact hack
    htyp hcb hto1 hre hcount hdelay
  have hackr := pcHandleAcknowledgement_success s sender mid i c hlen hi hfind htyp hcb
  refine ⟨?_, ?_, ?_, ?_, hackr.1, hackr.2⟩
  · exact processTrackedSlot_timeout_fires s t1 i c hact hack htyp hcb hto1
  · rw [hstate]; exact hact
  · rw [hstate]; exact hcb
  · have hfire2 := processTrackedSlot_timeout_fires (processTrackedSlot s t1 i).1 t2 i c
      (by rw [hstate]; exact hact)
      (by rw [hstate]; exact hack)
      (by rw [hstate]; exact htyp)
      (by rw [hstate]; exact hcb)
      (by rw [hstate]; exact hto2)
    rw [hstate] at hfire2
    exact hfire2

/-- C1 amended-claim witness at the concrete single-slot state. -/
theorem C1_amended_witness :
    (PCEvent.confirmCall 1 (c1amState.trackedMessages.getD 0 {}).targetBoard
        (c1amState.trackedMessages.getD 0 {}).pin
        (c1amState.trackedMessages.getD 0 {}).value false
      ∈ (processTrackedSlot c1amState 5001 0).2)
    ∧ ((processTrackedSlot c1amState 5001 0).1.trackedMessages.getD 0 {}).active = true
    ∧ ((processTrackedSlot c1amState 5001 0).1.trackedMessages.getD 0 {}).confirmCallback
        = some 1
    ∧ (PCEvent.confirmCall 1 (c1amState.trackedMessages.getD 0 {}).targetBoard
        (c1amState.trackedMessages.getD 0 {}).pin
        (c1amState.trackedMessages.getD 0 {}).value false
      ∈ (processTrackedSlot (processTrackedSlot c1amState 5001 0).1 10502 0).2)
    ∧ (PCEvent.confirmCall 1 (c1amState.trackedMessages.getD 0 {}).targetBoard
        (c1amState.trackedMessages.getD 0 {}).pin
        (c1amState.trackedMessages.getD 0 {}).value true
      ∈ (pcHandleAcknowledgement c1amState "B" "m1").2)
    ∧ ((pcHandleAcknowledgement c1amState "B" "m1").1.trackedMessages.getD 0 {}).active
        = false :=
  C1_amended c1amState 0 1 5001 10502 "B" "m1" (by decide) (by decide) (by decide)
    (by decide) (by decide) (by decide) (by decide) (by decide) (by decide)
    (by decide) (by decide) (by decide)

/-- The serialized-length model never reports zero. -/
theorem pcSerializedLen_pos (messageType : Nat) (d : PCDoc) :
    0 < pcSerializedLen messageType d := by
  unfold pcSerializedLen
  omega

/-- A timed-out slot whose retries are exhausted and whose retry is not
pending is deactivated by the per-slot step. -/
theorem processTrackedSlot_timeout_exhausted (s : PinCommState) (now i : Nat)
    (hlen : s.trackedMessages.length = MAX_TRACKED_MESSAGES)
    (hi : i < MAX_TRACKED_MESSAGES)
    (hact : (s.trackedMessages.getD i {}).active = true)
    (hack : (s.trackedMessages.getD i {}).acknowledged = false)
    (hto : sub32 now (s.trackedMessages.getD i {}).sentTime > ACK_TIMEOUT)
    (hcount : ¬ ((s.trackedMessages.getD i {}).retryCount < s.pinControlMaxRetries))
    (hsched : (s.trackedMessages.getD i {}).retryScheduled = false) :
    (processTrackedSlot s now i).1.trackedMessages.getD i {} =
      { s.trackedMessages.getD i {} with active := false } := by
  have hset : ∀ tr : MessageTrack, (s.trackedMessages.set i tr).getD i {} = tr := by
    intro tr
    rw [List.getD_eq_getElem _ _ (by rw [List.length_set, hlen]; exact hi)]
    exact List.getElem_set_self _
  unfold processTrackedSlot
  dsimp only
  rw [show ((s.trackedMessages.getD i {}).active
        && !(s.trackedMessages.getD i {}).acknowledged) = true from by
      rw [hact, hack]; rfl]
  rw [if_pos rfl]
  rw [if_pos hto]
  have hcond3 : ¬ (s.pinControlRetriesEnabled = true
      ∧ (s.trackedMessages.getD i {}).messageType = MSG_TYPE_PIN_CONTROL
      ∧ (s.trackedMessages.getD i {}).retryCount < s.pinControlMaxRetries) :=
    fun hcond => hcount hcond.2.2
  rw [if_neg hcond3]
  dsimp only
  rw [hset]
  rw [if_neg (by
    intro hcond
    have h1 := hcond.1
    dsimp only at h1
    rw [hsched] at h1
    exact Bool.false_ne_true h1)]
  dsimp only
  rw [hset]

/-- A due scheduled retry of a pin-control slot that has not timed out
again retransmits a frame carrying the slot's original message id, pin
and value. -/
theorem processTrackedSlot_retry_resend (s : PinCommState) (now i : Nat)
    (hact : (s.trackedMessages.getD i {}).active = true)
    (hack : (s.trackedMessages.getD i {}).acknowledged = false)
    (hnto : ¬ (sub32 now (s.trackedMessages.getD i {}).sentTime > ACK_TIMEOUT))
    (hsched : (s.trackedMessages.getD i {}).retryScheduled = true)
    (hdue : (s.trackedMessages.getD i {}).nextRetryTime ≤ now)
    (htyp : (s.trackedMessages.getD i {}).messageType = MSG_TYPE_PIN_CONTROL)
    (hconn : s.isConnected = true)
    (htb : (s.trackedMessages.getD i {}).targetBoard.length ≠ 0)
    (hlenok : pcSerializedLen MSG_TYPE_PIN_CONTROL
        { sender := some s.boardId, id := some (s.trackedMessages.getD i {}).messageId,
          pin := some (s.trackedMessages.getD i {}).pin,
          value := some (s.trackedMessages.getD i {}).value } < MAX_PIN_DATA_SIZE) :
    PCEvent.frameSent MSG_TYPE_PIN_CONTROL (s.trackedMessages.getD i {}).targetBoard
      { sender := some s.boardId, id := some (s.trackedMessages.getD i {}).messageId,
        pin := some (s.trackedMessages.getD i {}).pin,
        value := some (s.trackedMessages.getD i {}).value }
      ∈ (processTrackedSlot s now i).2 := by
  unfold processTrackedSlot
  dsimp only
  rw [show ((s.trackedMessages.getD i {}).active
        && !(s.trackedMessages.getD i {}).acknowledged) = true from by
      rw [hact, hack]; rfl]
  rw [if_pos rfl]
  rw [if_neg hnto]
  dsimp only
  have hcond4 : (s.trackedMessages.getD i {}).retryScheduled = true
      ∧ (s.trackedMessages.getD i {}).nextRetryTime ≤ now := ⟨hsched, hdue⟩
  rw [if_pos hcond4]
  unfold pcSendMessage
  rw [if_neg (by
    intro hor
    rcases hor with h1 | h2
    · rw [hconn] at h1; exact Bool.true_eq_false.mp h1
    · exact htb h2)]
  simp only [htyp, eq_self_iff_true, if_true]
  have hguard : ¬ (pcSerializedLen MSG_TYPE_PIN_CONTROL
        { sender := some s.boardId,
          id := some (s.trackedMessages.getD i {}).messageId,
          pin := some (s.trackedMessages.getD i {}).pin,
          value := some (s.trackedMessages.getD i {}).value } = 0
      ∨ MAX_PIN_DATA_SIZE ≤ pcSerializedLen MSG_TYPE_PIN_CONTROL
        { sender := some s.boardId,
          id := some (s.trackedMessages.getD i {}).messageId,
          pin := some (s.trackedMessages.getD i {}).pin,
          value := some (s.trackedMessages.getD i {}).value }) := by
    have hpos := pcSerializedLen_pos MSG_TYPE_PIN_CONTROL
      { sender := some s.boardId,
        id := some (s.trackedMessages.getD i {}).messageId,
        pin := some (s.trackedMessages.getD i {}).pin,
        value := some (s.trackedMessages.getD i {}).value }
    omega
  rw [if_neg hguard]
  exact List.mem_append_right _ (List.mem_singleton.mpr rfl)

/-- C2 (amended): with retries enabled and max-retries N, a timed-out
tracked pin-control slot with retries remaining schedules one retry,
increments its retry counter (which therefore never exceeds N), and —
already at this first timeout — fires the completion callback with
`success = false`; a timed-out slot with its retries exhausted is
deactivated; and a due scheduled retry retransmits a frame that reuses
the slot's original message id, pin and value (that retransmission
re-enters `sendMessage` and thus allocates a fresh tracking slot for the
same id, which is why total retransmissions can exceed N). -/
theorem C2_amended :
    (∀ (s : PinCommState) (i c now : Nat),
      s.trackedMessages.length = MAX_TRACKED_MESSAGES →
      i < MAX_TRACKED_MESSAGES →
      (s.trackedMessages.getD i {}).active = true →
      (s.trackedMessages.getD i {}).acknowledged = false →
      (s.trackedMessages.getD i {}).messageType = MSG_TYPE_PIN_CONTROL →
      (s.trackedMessages.getD i {}).confirmCallback = some c →
      sub32 now (s.trackedMessages.getD i {}).sentTime > ACK_TIMEOUT →
      s.pinControlRetriesEnabled = true →
      (s.trackedMessages.getD i {}).retryCount < s.pinControlMaxRetries →
      0 < s.pinControlRetryDelay →
      ((processTrackedSlot s now i).1.trackedMessages.getD i {}).retryScheduled = true
      ∧ ((processTrackedSlot s now i).1.trackedMessages.getD i {}).retryCount
          = (s.trackedMessages.getD i {}).retryCount + 1
      ∧ ((processTrackedSlot s now i).1.trackedMessages.getD i {}).retryCount
          ≤ s.pinControlMaxRetries
      ∧ ((processTrackedSlot s now i).1.trackedMessages.getD i {}).nextRetryTime
          = now + s.pinControlRetryDelay
      ∧ PCEvent.confirmCall c (s.trackedMessages.getD i {}).targetBoard
          (s.trackedMessages.getD i {}).pin (s.trackedMessages.getD i {}).value false
          ∈ (processTrackedSlot s now i).2)
    ∧ (∀ (s : PinCommState) (i now : Nat),
      s.trackedMessages.length = MAX_TRACKED_MESSAGES →
      i < MAX_TRACKED_MESSAGES →
      (s.trackedMessages.getD i {}).active = true →
      (s.trackedMessages.getD i {}).acknowledged = false →
      sub32 now (s.trackedMessages.getD i {}).sentTime > ACK_TIMEOUT →
      ¬ ((s.trackedMessages.getD i {}).retryCount < s.pinControlMaxRetries) →
      (s.trackedMessages.getD i {}).retryScheduled = false →
      ((processTrackedSlot s now i).1.trackedMessages.getD i {}).active = false)
    ∧ (∀ (s : PinCommState) (i now : Nat),
      (s.trackedMessages.getD i {}).active = true →
      (s.trackedMessages.getD i {}).acknowledged = false →
      ¬ (sub32 now (s.trackedMessages.getD i {}).sentTime > ACK_TIMEOUT) →
      (s.trackedMessages.getD i {}).retryScheduled = true →
      (s.trackedMessages.getD i {}).nextRetryTime ≤ now →
      (s.trackedMessages.getD i {}).messageType = MSG_TYPE_PIN_CONTROL →
      s.isConnected = true →
      (s.trackedMessages.getD i {}).targetBoard.length ≠ 0 →
      pcSerializedLen MSG_TYPE_PIN_CONTROL
        { sender := some s.boardId,
          id := some (s.trackedMessages.getD i {}).messageId,
          pin := some (s.trackedMessages.getD i {}).pin,
          value := some (s.trackedMessages.getD i {}).value } < MAX_PIN_DATA_SIZE →
      PCEvent.frameSent MSG_TYPE_PIN_CONTROL (s.trackedMessages.getD i {}).targetBoard
        { sender := some s.boardId,
          id := some (s.trackedMessages.getD i {}).messageId,
          pin := some (s.trackedMessages.getD i {}).pin,
          value := some (s.trackedMessages.getD i {}).value }
        ∈ (processTrackedSlot s now i).2) := by
  refine ⟨?_, ?_, ?_⟩
  · intro s i c now hlen hi hact hack htyp hcb hto hre hcount hdelay
    have hstate := processTrackedSlot_timeout_retry_state s now i c hlen hi hact hack
      htyp hcb hto hre hcount hdelay
    exact ⟨by rw [hstate], by rw [hstate],
      by rw [hstate]; dsimp only; omega, by rw [hstate],
      processTrackedSlot_timeout_fires s now i c hact hack htyp hcb hto⟩
  · intro s i now hlen hi hact hack hto hcount hsched
    rw [processTrackedSlot_timeout_exhausted s now i hlen hi hact hack hto hcount hsched]
  · intro s i now hact hack hnto hsched hdue htyp hconn htb hlenok
    exact processTrackedSlot_retry_resend s now i hact hack hnto hsched hdue htyp
      hconn htb hlenok

/-- C2 amended-claim witness at the three concrete single-slot states. -/
theorem C2_amended_witness :
    (((processTrackedSlot c2amA 5001 0).1.trackedMessages.getD 0 {}).retryScheduled = true
      ∧ ((processTrackedSlot c2amA 5001 0).1.trackedMessages.getD 0 {}).retryCount
          = (c2amA.trackedMessages.getD 0 {}).retryCount + 1
      ∧ ((processTrackedSlot c2amA 5001 0).1.trackedMessages.getD 0 {}).retryCount
          ≤ c2amA.pinControlMaxRetries
      ∧ ((processTrackedSlot c2amA 5001 0).1.trackedMessages.getD 0 {}).nextRetryTime
          = 5001 + c2amA.pinControlRetryDelay
      ∧ PCEvent.confirmCall 1 (c2amA.trackedMessages.getD 0 {}).targetBoard
          (c2amA.trackedMessages.getD 0 {}).pin
          (c2amA.trackedMessages.getD 0 {}).value false
          ∈ (processTrackedSlot c2amA 5001 0).2)
    ∧ ((processTrackedSlot c2amB 5001 0).1.trackedMessages.getD 0 {}).active = false
    ∧ (PCEvent.frameSent MSG_TYPE_PIN_CONTROL
        (c2amC.trackedMessages.getD 0 {}).targetBoard
        { sender := some c2amC.boardId,
          id := some (c2amC.trackedMessages.getD 0 {}).messageId,
          pin := some (c2amC.trackedMessages.getD 0 {}).pin,
          value := some (c2amC.trackedMessages.getD 0 {}).value }
        ∈ (processTrackedSlot c2amC 5501 0).2) :=
  ⟨C2_amended.1 c2amA 0 1 5001 (by decide) (by decide) (by decide) (by decide)
      (by decide) (by decide) (by decide) (by decide) (by decide) (by decide),
   C2_amended.2.1 c2amB 0 5001 (by decide) (by decide) (by decide) (by decide)
      (by decide) (by decide) (by decide),
   C2_amended.2.2 c2amC 0 5501 (by decide) (by decide) (by decide) (by decide)
      (by decide) (by decide) (by decide) (by decide) (by decide)⟩

theorem pcHandleAcknowledgement_no_confirm (s : PinCommState) (sender mid : String)
    (hprop : ∀ j : Nat, j < s.trackedMessageCount →
      (s.trackedMessages.getD j {}).active = true →
      (s.trackedMessages.getD j {}).messageType = MSG_TYPE_PIN_CONTROL →
      (s.trackedMessages.getD j {}).confirmCallback = none) :
    ∀ c b pin v succ,
      PCEvent.confirmCall c b pin v succ ∉ (pcHandleAcknowledgement s sender mid).2 := by
  intro c b pin v succ hmem
  unfold pcHandleAcknowledgement at hmem
  rcases htr : trackScanIdx (s.trackedMessages.take s.trackedMessageCount) sender mid
    with _ | i <;> rw [htr] at hmem
  · simp at hmem
  · rcases findIdx?_some_prop htr with ⟨hilt, hpred⟩
    have hilen : i < s.trackedMessages.length := by
      have := hilt
      rw [List.length_take] at this
      omega
    have hitake : (s.trackedMessages.take s.trackedMessageCount)[i] =
        s.trackedMessages[i] := List.getElem_take _
    have hgetD : s.trackedMessages.getD i {} =
        (s.trackedMessages.take s.trackedMessageCount)[i] := by
      rw [hitake]
      exact List.getD_eq_getElem _ _ _
    have hactive : (s.trackedMessages.getD i {}).active = true := by
      rw [hgetD]
      have hp := hpred
      simp only [Bool.and_eq_true, beq_iff_eq] at hp
      exact hp.1.1
    dsimp only at hmem
    rw [List.mem_append] at hmem
    rcases hmem with hmem | hmem
    · by_cases htyp : (s.trackedMessages.getD i {}).messageType = MSG_TYPE_PIN_CONTROL
      · have hicnt : i < s.trackedMessageCount := by
          have := hilt
          rw [List.length_take] at this
          omega
        rw [if_pos htyp, hprop i hicnt hactive htyp] at hmem
        simp at hmem
      · rw [if_neg htyp] at hmem
        simp at hmem
    · rcases hsc : s.sendStatusCallback with _ | cb
      · simp only [hsc] at hmem
        simp at hmem
      · simp only [hsc] at hmem
        simp at hmem

theorem pcClear_slots_cleared (s : PinCommState) :
    ∀ j : Nat, j < s.trackedMessageCount →
      ((pcClearRemotePinConfirmCallback s).trackedMessages.getD j {}).active = true →
      ((pcClearRemotePinConfirmCallback s).trackedMessages.getD j {}).messageType
        = MSG_TYPE_PIN_CONTROL →
      ((pcClearRemotePinConfirmCallback s).trackedMessages.getD j {}).confirmCallback
        = none := by
  intro j hj hact htyp
  unfold pcClearRemotePinConfirmCallback at hact htyp ⊢
  dsimp only at hact htyp ⊢
  by_cases hlen : j < s.trackedMessages.length
  · rw [List.getD_eq_getElem _ _ (by rw [List.length_mapIdx]; exact hlen)]
      at hact htyp ⊢
    rw [List.getElem_mapIdx] at hact htyp ⊢
    by_cases hc : j < s.trackedMessageCount ∧ s.trackedMessages[j].active = true ∧
        s.trackedMessages[j].messageType = MSG_TYPE_PIN_CONTROL
    · rw [if_pos hc]
    · rw [if_neg hc] at hact htyp
      exact absurd ⟨hj, hact, htyp⟩ hc
  · rw [List.getD_eq_default _ _ (by rw [List.length_mapIdx]; omega)] at hact
    rw [show ({} : MessageTrack).active = false from rfl] at hact
    cases hact

/-- C8: After `clearRemotePinConfirmCallback` returns, the global pin-control
confirm callback is null and no active `MSG_TYPE_PIN_CONTROL` tracked slot
within the tracked range holds a per-message confirmation callback, so a
subsequent acknowledgement (for any sender and message id) invokes no
confirmation callback at all. -/
theorem C8_amended (s : PinCommState) (sender mid : String) :
    (pcClearRemotePinConfirmCallback s).pinControlConfirmCallback = none ∧
    (∀ j : Nat, j < s.trackedMessageCount →
      ((pcClearRemotePinConfirmCallback s).trackedMessages.getD j {}).active = true →
      ((pcClearRemotePinConfirmCallback s).trackedMessages.getD j {}).messageType
        = MSG_TYPE_PIN_CONTROL →
      ((pcClearRemotePinConfirmCallback s).trackedMessages.getD j {}).confirmCallback
        = none) ∧
    (∀ c b pin v succ,
      PCEvent.confirmCall c b pin v succ ∉
        (pcHandleAcknowledgement (pcClearRemotePinConfirmCallback s) sender mid).2) :=
  ⟨rfl, pcClear_slots_cleared s,
    pcHandleAcknowledgement_no_confirm (pcClearRemotePinConfirmCallback s) sender mid
      (pcClear_slots_cleared s)⟩

theorem C8_amended_witness :
    (pcClearRemotePinConfirmCallback c8s1).pinControlConfirmCallback = none ∧
    PCEvent.confirmCall 9 "B" 4 0 false ∉
      (pcHandleAcknowledgement (pcClearRemotePinConfirmCallback c8s1) "B" "r1").2 :=
  ⟨(C8_amended c8s1 "B" "r1").1,
    (C8_amended c8s1 "B" "r1").2.2 9 "B" 4 0 false⟩

/-- The oldest-slot scan leaves its accumulator untouched when no value
beats the running bound. -/
theorem oldestScanAux_no_update (vals : List Nat) (i : Nat) (best : Option Nat)
    (oldest : Nat) (h : ∀ v ∈ vals, oldest ≤ v) :
    oldestScanAux vals i best oldest = best := by
  induction vals generalizing i with
  | nil => rfl
  | cons v rest ih =>
    unfold oldestScanAux
    rw [if_neg (by have := h v (List.mem_cons_self v rest); omega)]
    exact ih (i + 1) (fun w hw => h w (List.mem_cons_of_mem v hw))

/-- The oldest-slot scan returns the index of the first value that is
below the bound, strictly below every earlier value and at most every
later one. -/
theorem oldestScanAux_min (vals : List Nat) (i : Nat) (best : Option Nat)
    (oldest : Nat) (j : Nat) (hj : j < vals.length)
    (hlt : vals[j] < oldest)
    (hbefore : ∀ k, (hk : k < vals.length) → k < j → vals[j] < vals[k])
    (hafter : ∀ k, (hk : k < vals.length) → j < k → vals[j] ≤ vals[k]) :
    oldestScanAux vals i best oldest = some (i + j) := by
  induction vals generalizing i best oldest j with
  | nil => simp at hj
  | cons v rest ih =>
    unfold oldestScanAux
    rcases j with _ | j
    · simp only [List.getElem_cons_zero] at hlt hafter
      rw [if_pos hlt]
      rw [oldestScanAux_no_update rest (i + 1) (some i) v ?_]
      · simp
      · intro w hw
        obtain ⟨k, hk, rfl⟩ := List.mem_iff_getElem.mp hw
        have := hafter (k + 1) (by simpa using Nat.succ_lt_succ hk) (Nat.succ_pos k)
        simpa using this
    · simp only [List.getElem_cons_succ] at hlt
      have hrj : j < rest.length := by simpa using Nat.lt_of_succ_lt_succ hj
      have hv : rest[j] < v := by
        have := hbefore 0 (by simp) (Nat.succ_pos j)
        simpa using this
      have hbefore' : ∀ k, (hk : k < rest.length) → k < j → rest[j] < rest[k] := by
        intro k hk hkj
        have := hbefore (k + 1) (by simpa using Nat.succ_lt_succ hk)
          (Nat.succ_lt_succ hkj)
        simpa using this
      have hafter' : ∀ k, (hk : k < rest.length) → j < k → rest[j] ≤ rest[k] := by
        intro k hk hjk
        have := hafter (k + 1) (by simpa using Nat.succ_lt_succ hk)
          (Nat.succ_lt_succ hjk)
        simpa using this
      by_cases hvo : v < oldest
      · rw [if_pos hvo]
        rw [ih (i + 1) (some i) v j hrj hv hbefore' hafter']
        congr 1
        omega
      · rw [if_neg hvo]
        rw [ih (i + 1) best oldest j hrj hlt hbefore' hafter']
        congr 1
        omega

/-- `oldestScan` finds the unique strict minimum when it is below the
initial bound. -/
theorem oldestScan_min (vals : List Nat) (init j : Nat) (hj : j < vals.length)
    (hlt : vals[j] < init)
    (hmin : ∀ k, (hk : k < vals.length) → k ≠ j → vals[j] < vals[k]) :
    oldestScan vals init = some j := by
  unfold oldestScan
  have := oldestScanAux_min vals 0 none init j hj hlt
    (fun k hk hkj => hmin k hk (by omega))
    (fun k hk hjk => le_of_lt (hmin k hk (by omega)))
  simpa using this

/-- `oldestScan` finds nothing when every value is at least the initial
bound (the `-1` outcome of the C scan). -/
theorem oldestScan_none (vals : List Nat) (init : Nat)
    (h : ∀ v ∈ vals, init ≤ v) : oldestScan vals init = none :=
  oldestScanAux_no_update vals 0 none init h

/-- `List.find?` at the unique index satisfying the predicate. -/
theorem find?_unique {α : Type} (l : List α) (p : α → Bool) (j : Nat)
    (hj : j < l.length) (hpj : p l[j] = true)
    (hother : ∀ k, (hk : k < l.length) → k ≠ j → p l[k] = false) :
    l.find? p = some l[j] := by
  induction l generalizing j with
  | nil => simp at hj
  | cons x rest ih =>
    rcases j with _ | j
    · simp only [List.getElem_cons_zero] at hpj ⊢
      rw [List.find?_cons_of_pos _ hpj]
    · have hx : p x = false := by
        have := hother 0 (by simp) (by omega)
        simpa using this
      rw [List.find?_cons_of_neg _ (by rw [hx]; exact Bool.false_ne_true)]
      simp only [List.getElem_cons_succ] at hpj ⊢
      exact ih j (by simpa using Nat.lt_of_succ_lt_succ hj) hpj
        (fun k hk hkj => by
          have := hother (k + 1) (by simpa using Nat.succ_lt_succ hk) (by omega)
          simpa using this)

/-- `NetworkCore::addPeer` on a full table overwrites the slot with the
unique oldest `lastSeen`. -/
theorem ncAddPeer_evict (s : NCState) (boardId : String) (mac : List Nat)
    (now j : Nat)
    (hfull : ∀ p ∈ s.peers, p.active = true)
    (hnew : ∀ p ∈ s.peers, ¬ p.boardId = boardId)
    (hj : j < s.peers.length)
    (hmin : ∀ k, k < s.peers.length → k ≠ j →
      (s.peers.getD j {}).lastSeen < (s.peers.getD k {}).lastSeen)
    (hjm : (s.peers.getD j {}).lastSeen < UINT32_MAX) :
    ncAddPeer s boardId mac now =
      ({ s with
          peers := s.peers.set j
            { boardId := boardId, macAddress := mac, active := true, lastSeen := now }
          peerCount := if s.peerCount < MAX_PEERS then s.peerCount + 1
                       else s.peerCount }, true) := by
  have h1 : s.peers.findIdx? (fun p => p.active && p.boardId == boardId) = none := by
    rw [List.findIdx?_eq_none_iff]
    intro p hp
    simp [hnew p hp]
  have h2 : s.peers.findIdx? (fun p => p.active = false) = none := by
    rw [List.findIdx?_eq_none_iff]
    intro p hp
    simp [hfull p hp]
  have h3 : oldestScan (s.peers.map (·.lastSeen)) UINT32_MAX = some j := by
    have hj' : j < (s.peers.map (·.lastSeen)).length := by
      rw [List.length_map]; exact hj
    refine oldestScan_min _ _ j hj' ?_ ?_
    · rw [List.getElem_map]
      rw [List.getD_eq_getElem _ _ hj] at hjm
      exact hjm
    · intro k hk hkj
      rw [List.length_map] at hk
      rw [List.getElem_map, List.getElem_map]
      have := hmin k hk hkj
      rw [List.getD_eq_getElem _ _ hj, List.getD_eq_getElem _ _ hk] at this
      exact this
  unfold ncAddPeer
  rw [h1, h2, h3]

/-- After the ESP-NOW eviction the evicted id no longer resolves while
the new id and every other id still resolve. -/
theorem ncAddPeer_evict_resolves (s : NCState) (boardId : String) (mac : List Nat)
    (now j : Nat)
    (hfull : ∀ p ∈ s.peers, p.active = true)
    (hnew : ∀ p ∈ s.peers, ¬ p.boardId = boardId)
    (hj : j < s.peers.length)
    (hmin : ∀ k, k < s.peers.length → k ≠ j →
      (s.peers.getD j {}).lastSeen < (s.peers.getD k {}).lastSeen)
    (hjm : (s.peers.getD j {}).lastSeen < UINT32_MAX)
    (hids : ∀ k, k < s.peers.length → ∀ l, l < s.peers.length → k ≠ l →
      (s.peers.getD k {}).boardId ≠ (s.peers.getD l {}).boardId) :
    (ncAddPeer s boardId mac now).1.peers =
      s.peers.set j
        { boardId := boardId, macAddress := mac, active := true, lastSeen := now } ∧
    ncGetMacForBoardId (ncAddPeer s boardId mac now).1 boardId = some mac ∧
    ncGetMacForBoardId (ncAddPeer s boardId mac now).1
      ((s.peers.getD j {}).boardId) = none ∧
    ∀ k, k < s.peers.length → k ≠ j →
      ncGetMacForBoardId (ncAddPeer s boardId mac now).1
        ((s.peers.getD k {}).boardId) = some ((s.peers.getD k {}).macAddress) := by
  have hevict := ncAddPeer_evict s boardId mac now j hfull hnew hj hmin hjm
  rw [hevict]
  set newp : NCPeer :=
    { boardId := boardId, macAddress := mac, active := true, lastSeen := now } with hnewp
  have hlen : (s.peers.set j newp).length = s.peers.length := List.length_set _ _ _
  have hjset : j < (s.peers.set j newp).length := by rw [hlen]; exact hj
  have hgetj : (s.peers.set j newp)[j] = newp := List.getElem_set_self _
  have hgetne : ∀ k, (hka : k < (s.peers.set j newp).length) →
      (hkb : k < s.peers.length) → k ≠ j →
      (s.peers.set j newp)[k] = s.peers[k] := by
    intro k hka hkb hkj
    exact List.getElem_set_ne (fun h => hkj h.symm) _
  have hdj : s.peers.getD j {} = s.peers[j] := List.getD_eq_getElem _ _ hj
  have hmemk : ∀ k, (hk : k < s.peers.length) → s.peers[k] ∈ s.peers := by
    intro k hk
    exact List.mem_iff_getElem.mpr ⟨k, hk, rfl⟩
  refine ⟨rfl, ?_, ?_, ?_⟩
  · unfold ncGetMacForBoardId
    dsimp only
    rw [find?_unique (s.peers.set j newp)
      (fun p => p.active && p.boardId == boardId) j (by rw [hlen]; exact hj)
      (by rw [hgetj]; simp)
      (by
        intro k hk hkj
        have hk2 : k < s.peers.length := by rw [hlen] at hk; exact hk
        rw [hgetne k hk hk2 hkj]
        have := hnew (s.peers[k]) (hmemk k hk2)
        simp [this])]
    rw [hgetj]
    simp [hnewp]
  · unfold ncGetMacForBoardId
    dsimp only
    rw [List.find?_eq_none.mpr ?_]
    · rfl
    · intro x hx
      obtain ⟨k, hk, rfl⟩ := List.mem_iff_getElem.mp hx
      have hk2 : k < s.peers.length := by rw [hlen] at hk; exact hk
      by_cases hkj : k = j
      · subst hkj
        rw [hgetj]
        have hne := hnew (s.peers[k]) (hmemk k hk2)
        rw [List.getD_eq_getElem _ _ hk2]
        simp only [hnewp, Bool.true_and, beq_iff_eq]
        exact fun h => hne h.symm
      · rw [hgetne k hk hk2 hkj, hdj]
        have hne2 := hids k hk2 j hj hkj
        rw [List.getD_eq_getElem _ _ hk2, hdj] at hne2
        simp only [Bool.and_eq_true, beq_iff_eq, not_and]
        exact fun _ h => hne2 h
  · intro k hk hkj
    have hdk : s.peers.getD k {} = s.peers[k] := List.getD_eq_getElem _ _ hk
    unfold ncGetMacForBoardId
    dsimp only
    rw [find?_unique (s.peers.set j newp)
      (fun p => p.active && p.boardId == (s.peers.getD k {}).boardId) k
      (by rw [hlen]; exact hk)
      (by
        rw [hgetne k (by rw [hlen]; exact hk) hk hkj, hdk]
        dsimp only
        rw [hfull (s.peers[k]) (hmemk k hk)]
        simp)
      (by
        intro l hl hlk
        have hl2 : l < s.peers.length := by rw [hlen] at hl; exact hl
        by_cases hlj : l = j
        · subst hlj
          rw [hgetj, hdk]
          have hne := hnew (s.peers[k]) (hmemk k hk)
          simp only [hnewp, Bool.true_and, beq_eq_false_iff_ne, ne_eq]
          exact fun h => hne h.symm
        · rw [hgetne l hl hl2 hlj, hdk]
          have hne2 := hids l hl2 k hk hlk
          rw [List.getD_eq_getElem _ _ hl2, hdk] at hne2
          simp [hne2])]
    rw [hgetne k (by rw [hlen]; exact hk) hk hkj, hdk]
    rfl

/-- `PinComm::addPeer` on a full table overwrites the slot with the
unique oldest `lastSeen` provided it is strictly older than `millis()`. -/
theorem pcAddPeer_evict (s : PinCommState) (boardId : String) (now j : Nat)
    (hbid : ¬ boardId.length = 0)
    (hcnt : s.peerCount = MAX_PEERS)
    (hlen : s.peers.length = MAX_PEERS)
    (hfull : ∀ p ∈ s.peers, p.active = true)
    (hnew : ∀ p ∈ s.peers, ¬ p.boardId = boardId)
    (hj : j < s.peers.length)
    (hmin : ∀ k, k < s.peers.length → k ≠ j →
      (s.peers.getD j {}).lastSeen < (s.peers.getD k {}).lastSeen)
    (hjn : (s.peers.getD j {}).lastSeen < now) :
    pcAddPeer s boardId now =
      ({ s with
          peers := s.peers.set j
            { boardId := boardId, active := true, lastSeen := now }
          peerCount := max s.peerCount (j + 1) },
       (match s.discoveryCallback with
        | some cb => [PCEvent.discoveryCall cb boardId]
        | none => []),
       true) := by
  have htake : s.peers.take s.peerCount = s.peers := by
    rw [hcnt, ← hlen]
    exact List.take_length _
  have h1 : (s.peers.take s.peerCount).findIdx? (fun p => p.boardId = boardId)
      = none := by
    rw [htake, List.findIdx?_eq_none_iff]
    intro p hp
    simp [hnew p hp]
  have h2 : s.peers.findIdx? (fun p => p.active = false) = none := by
    rw [List.findIdx?_eq_none_iff]
    intro p hp
    simp [hfull p hp]
  have h3 : oldestScan ((s.peers.take s.peerCount).map (·.lastSeen)) now
      = some j := by
    rw [htake]
    have hj' : j < (s.peers.map (·.lastSeen)).length := by
      rw [List.length_map]; exact hj
    refine oldestScan_min _ _ j hj' ?_ ?_
    · rw [List.getElem_map]
      rw [List.getD_eq_getElem _ _ hj] at hjn
      exact hjn
    · intro k hk hkj
      rw [List.length_map] at hk
      rw [List.getElem_map, List.getElem_map]
      have := hmin k hk hkj
      rw [List.getD_eq_getElem _ _ hj, List.getD_eq_getElem _ _ hk] at this
      exact this
  have hguard : ¬ MAX_PEERS ≤ j := by
    rw [hlen] at hj
    omega
  unfold pcAddPeer
  rw [if_neg hbid, h1, h2, h3]
  dsimp only
  rw [if_neg hguard]

/-- `PinComm::addPeer` refuses the insert on a full table when no entry
is strictly older than `millis()` (the scan is seeded with `millis()`). -/
theorem pcAddPeer_refuse (s : PinCommState) (boardId : String) (now : Nat)
    (hbid : ¬ boardId.length = 0)
    (hfull : ∀ p ∈ s.peers, p.active = true)
    (hnew : ∀ p ∈ s.peers, ¬ p.boardId = boardId)
    (hold : ∀ p ∈ s.peers, now ≤ p.lastSeen) :
    pcAddPeer s boardId now = (s, [], false) := by
  have h1 : (s.peers.take s.peerCount).findIdx? (fun p => p.boardId = boardId)
      = none := by
    rw [List.findIdx?_eq_none_iff]
    intro p hp
    simp [hnew p (List.take_subset _ _ hp)]
  have h2 : s.peers.findIdx? (fun p => p.active = false) = none := by
    rw [List.findIdx?_eq_none_iff]
    intro p hp
    simp [hfull p hp]
  have h3 : oldestScan ((s.peers.take s.peerCount).map (·.lastSeen)) now
      = none := by
    refine oldestScan_none _ _ ?_
    intro v hv
    obtain ⟨p, hp, rfl⟩ := List.mem_map.mp hv
    exact hold p (List.take_subset _ _ hp)
  unfold pcAddPeer
  rw [if_neg hbid, h1, h2, h3]

/-- After the UART eviction the board availability of the new, evicted
and remaining ids is as expected. -/
theorem pcAddPeer_evict_avail (s : PinCommState) (boardId : String) (now j : Nat)
    (hbid : ¬ boardId.length = 0)
    (hconn : s.isConnected = true)
    (hcnt : s.peerCount = MAX_PEERS)
    (hlen : s.peers.length = MAX_PEERS)
    (hfull : ∀ p ∈ s.peers, p.active = true)
    (hnew : ∀ p ∈ s.peers, ¬ p.boardId = boardId)
    (hj : j < s.peers.length)
    (hmin : ∀ k, k < s.peers.length → k ≠ j →
      (s.peers.getD j {}).lastSeen < (s.peers.getD k {}).lastSeen)
    (hjn : (s.peers.getD j {}).lastSeen < now)
    (hids : ∀ k, k < s.peers.length → ∀ l, l < s.peers.length → k ≠ l →
      (s.peers.getD k {}).boardId ≠ (s.peers.getD l {}).boardId) :
    (pcAddPeer s boardId now).2.2 = true ∧
    (pcAddPeer s boardId now).1.peers =
      s.peers.set j { boardId := boardId, active := true, lastSeen := now } ∧
    pcIsBoardAvailable (pcAddPeer s boardId now).1 boardId = true ∧
    pcIsBoardAvailable (pcAddPeer s boardId now).1
      ((s.peers.getD j {}).boardId) = false ∧
    ∀ k, k < s.peers.length → k ≠ j →
      pcIsBoardAvailable (pcAddPeer s boardId now).1
        ((s.peers.getD k {}).boardId) = true := by
  have hevict := pcAddPeer_evict s boardId now j hbid hcnt hlen hfull hnew hj hmin hjn
  rw [hevict]
  set newp : PCPeer := { boardId := boardId, active := true, lastSeen := now }
    with hnewp
  have hjM : j < MAX_PEERS := by rw [hlen] at hj; exact hj
  have hcnt1 : max s.peerCount (j + 1) = MAX_PEERS := by
    rw [hcnt]
    omega
  have hlenset : (s.peers.set j newp).length = MAX_PEERS := by
    rw [List.length_set, hlen]
  have htake1 : (s.peers.set j newp).take (max s.peerCount (j + 1))
      = s.peers.set j newp := by
    rw [hcnt1, ← hlenset]
    exact List.take_length _
  have hjset : j < (s.peers.set j newp).length := by
    rw [List.length_set]; exact hj
  have hgetj : (s.peers.set j newp)[j] = newp := List.getElem_set_self _
  have hgetne : ∀ k, (hka : k < (s.peers.set j newp).length) →
      (hkb : k < s.peers.length) → k ≠ j →
      (s.peers.set j newp)[k] = s.peers[k] := by
    intro k hka hkb hkj
    exact List.getElem_set_ne (fun h => hkj h.symm) _
  have hdj : s.peers.getD j {} = s.peers[j] := List.getD_eq_getElem _ _ hj
  have hmemk : ∀ k, (hk : k < s.peers.length) → s.peers[k] ∈ s.peers := by
    intro k hk
    exact List.mem_iff_getElem.mpr ⟨k, hk, rfl⟩
  have hmemset : ∀ k, (hka : k < (s.peers.set j newp).length) →
      (s.peers.set j newp)[k] ∈ s.peers.set j newp := by
    intro k hka
    exact List.mem_iff_getElem.mpr ⟨k, hka, rfl⟩
  refine ⟨rfl, rfl, ?_, ?_, ?_⟩
  · unfold pcIsBoardAvailable
    dsimp only
    rw [hconn, htake1, Bool.true_and, List.any_eq_true]
    refine ⟨newp, ?_, by simp [hnewp]⟩
    have := hmemset j hjset
    rw [hgetj] at this
    exact this
  · unfold pcIsBoardAvailable
    dsimp only
    rw [hconn, htake1, Bool.true_and, List.any_eq_false]
    intro x hx
    obtain ⟨k, hk, rfl⟩ := List.mem_iff_getElem.mp hx
    have hk2 : k < s.peers.length := by rw [List.length_set] at hk; exact hk
    by_cases hkj : k = j
    · subst hkj
      rw [hgetj, hdj]
      have hne := hnew (s.peers[k]) (hmemk k hk2)
      simp only [hnewp, Bool.true_and, beq_iff_eq]
      exact fun h => hne h.symm
    · rw [hgetne k hk hk2 hkj, hdj]
      have hne2 := hids k hk2 j hj hkj
      rw [List.getD_eq_getElem _ _ hk2, hdj] at hne2
      simp only [Bool.and_eq_true, beq_iff_eq, not_and]
      exact fun _ h => hne2 h
  · intro k hk hkj
    have hdk : s.peers.getD k {} = s.peers[k] := List.getD_eq_getElem _ _ hk
    unfold pcIsBoardAvailable
    dsimp only
    rw [hconn, htake1, Bool.true_and, List.any_eq_true]
    refine ⟨s.peers[k], ?_, ?_⟩
    · have hkset : k < (s.peers.set j newp).length := by
        rw [List.length_set]; exact hk
      have := hmemset k hkset
      rw [hgetne k hkset hk hkj] at this
      exact this
    · rw [hdk]
      rw [hfull (s.peers[k]) (hmemk k hk)]
      simp

/-- C4: with every peer-table slot active, inserting a new node id evicts
the entry with the smallest `lastSeen` — unconditionally in the ESP-NOW
registry, whose scan is seeded with `UINT32_MAX`, after which the evicted
id no longer resolves while the new id and every other id still resolve;
in the UART registry only when the oldest entry is strictly older than
the current `millis()`, after which the evicted id is no longer available
while the new id and every other id are; otherwise the UART insert is
refused and the state is unchanged. -/
theorem C4_amended :
    (∀ (s : NCState) (boardId : String) (mac : List Nat) (now j : Nat),
      (∀ p ∈ s.peers, p.active = true) →
      (∀ p ∈ s.peers, ¬ p.boardId = boardId) →
      j < s.peers.length →
      (∀ k, k < s.peers.length → k ≠ j →
        (s.peers.getD j {}).lastSeen < (s.peers.getD k {}).lastSeen) →
      (s.peers.getD j {}).lastSeen < UINT32_MAX →
      (∀ k, k < s.peers.length → ∀ l, l < s.peers.length → k ≠ l →
        (s.peers.getD k {}).boardId ≠ (s.peers.getD l {}).boardId) →
      (ncAddPeer s boardId mac now).1.peers =
        s.peers.set j
          { boardId := boardId, macAddress := mac, active := true, lastSeen := now } ∧
      ncGetMacForBoardId (ncAddPeer s boardId mac now).1 boardId = some mac ∧
      ncGetMacForBoardId (ncAddPeer s boardId mac now).1
        ((s.peers.getD j {}).boardId) = none ∧
      ∀ k, k < s.peers.length → k ≠ j →
        ncGetMacForBoardId (ncAddPeer s boardId mac now).1
          ((s.peers.getD k {}).boardId) = some ((s.peers.getD k {}).macAddress)) ∧
    (∀ (s : PinCommState) (boardId : String) (now j : Nat),
      ¬ boardId.length = 0 →
      s.isConnected = true →
      s.peerCount = MAX_PEERS →
      s.peers.length = MAX_PEERS →
      (∀ p ∈ s.peers, p.active = true) →
      (∀ p ∈ s.peers, ¬ p.boardId = boardId) →
      j < s.peers.length →
      (∀ k, k < s.peers.length → k ≠ j →
        (s.peers.getD j {}).lastSeen < (s.peers.getD k {}).lastSeen) →
      (s.peers.getD j {}).lastSeen < now →
      (∀ k, k < s.peers.length → ∀ l, l < s.peers.length → k ≠ l →
        (s.peers.getD k {}).boardId ≠ (s.peers.getD l {}).boardId) →
      (pcAddPeer s boardId now).2.2 = true ∧
      (pcAddPeer s boardId now).1.peers =
        s.peers.set j { boardId := boardId, active := true, lastSeen := now } ∧
      pcIsBoardAvailable (pcAddPeer s boardId now).1 boardId = true ∧
      pcIsBoardAvailable (pcAddPeer s boardId now).1
        ((s.peers.getD j {}).boardId) = false ∧
      ∀ k, k < s.peers.length → k ≠ j →
        pcIsBoardAvailable (pcAddPeer s boardId now).1
          ((s.peers.getD k {}).boardId) = true) ∧
    (∀ (s : PinCommState) (boardId : String) (now : Nat),
      ¬ boardId.length = 0 →
      (∀ p ∈ s.peers, p.active = true) →
      (∀ p ∈ s.peers, ¬ p.boardId = boardId) →
      (∀ p ∈ s.peers, now ≤ p.lastSeen) →
      pcAddPeer s boardId now = (s, [], false)) :=
  ⟨fun s boardId mac now j h1 h2 h3 h4 h5 h6 =>
    ncAddPeer_evict_resolves s boardId mac now j h1 h2 h3 h4 h5 h6,
   fun s boardId now j h1 h2 h3 h4 h5 h6 h7 h8 h9 h10 =>
    pcAddPeer_evict_avail s boardId now j h1 h2 h3 h4 h5 h6 h7 h8 h9 h10,
   fun s boardId now h1 h2 h3 h4 =>
    pcAddPeer_refuse s boardId now h1 h2 h3 h4⟩

theorem C4_amended_witness :
    (ncGetMacForBoardId (ncAddPeer c4nc "NEW" [9, 9, 9, 9, 9, 9] 2000).1 "NEW"
        = some [9, 9, 9, 9, 9, 9]
      ∧ ncGetMacForBoardId (ncAddPeer c4nc "NEW" [9, 9, 9, 9, 9, 9] 2000).1 "N19"
        = none
      ∧ ncGetMacForBoardId (ncAddPeer c4nc "NEW" [9, 9, 9, 9, 9, 9] 2000).1 "N7"
        = some [1, 2, 3, 4, 5, 7])
    ∧ ((pcAddPeer c4pc "NEW" 2000).2.2 = true
      ∧ pcIsBoardAvailable (pcAddPeer c4pc "NEW" 2000).1 "NEW" = true
      ∧ pcIsBoardAvailable (pcAddPeer c4pc "NEW" 2000).1 "Q19" = false
      ∧ pcIsBoardAvailable (pcAddPeer c4pc "NEW" 2000).1 "Q7" = true)
    ∧ pcAddPeer c4s0 "NEW" 100 = (c4s0, [], false) := by
  obtain ⟨h1, h2, h3⟩ := C4_amended
  have a := h1 c4nc "NEW" [9, 9, 9, 9, 9, 9] 2000 19 (by decide) (by decide)
    (by decide) (by decide) (by decide) (by decide)
  have b := h2 c4pc "NEW" 2000 19 (by decide) (by decide) (by decide) (by decide)
    (by decide) (by decide) (by decide) (by decide) (by decide) (by decide)
  have c := h3 c4s0 "NEW" 100 (by decide) (by decide) (by decide) (by decide)
  refine ⟨⟨a.2.1, ?_, ?_⟩, ⟨b.1, b.2.2.1, ?_, ?_⟩, c⟩
  · have e : (c4nc.peers.getD 19 {}).boardId = "N19" := by decide
    rw [← e]
    exact a.2.2.1
  · have e1 : (c4nc.peers.getD 7 {}).boardId = "N7" := by decide
    have e2 : (c4nc.peers.getD 7 {}).macAddress = [1, 2, 3, 4, 5, 7] := by decide
    rw [← e1, ← e2]
    exact a.2.2.2 7 (by decide) (by decide)
  · have e : (c4pc.peers.getD 19 {}).boardId = "Q19" := by decide
    rw [← e]
    exact b.2.2.2.1
  · have e : (c4pc.peers.getD 7 {}).boardId = "Q7" := by decide
    rw [← e]
    exact b.2.2.2.2 7 (by decide) (by decide)
